import Mathlib

/-!
# Warehouse marketplace backend: promotion, bookings, access policy

A shallow embedding of the JavaScript sources

* `src/routes/listings.js` (POST /listings, PUT /listings/:id and its
  Listing → Warehouse promotion),
* `scripts/backfill_promote_listings.js` (bulk promotion and its dry run),
* `src/routes/bookings.js` (creation, transition and message of a booking) and
  the alias POST /book of `src/server.js`,
* `src/middleware/requireRole.js`, `src/lib/adapters.js`, `src/routes/admin.js`
  (role checks, the primary role label, approval and deletion of a warehouse),
* `src/routes/warehouses.js` (deletion of a warehouse),

followed by theorems about them.

## Conventions of the embedding

* A JavaScript value stored in a JSON column or received in a request body is a
  `JsValue`. `undefined` stands for an absent property.
* A JavaScript number is a `JsNum`: `NaN`, the two infinities, or a finite value
  carried as the exact rational it denotes. Rounding to binary64 is not
  modelled, except that a parsed literal beyond the binary64 range becomes an
  infinity; `-0` and `0` are one value.
* Text is a Lean `String`; character-level operations work on its `data`.
* The persistence store is explicit state (`Store`); a handler is a function
  from a store and a request to a response and a new store. What the database
  client decides from `prisma/schema.prisma`, which is not among the sources,
  is a parameter (`Schema`) or is named in the comment of the definition.
* Token verification, the clock and the library functions `toUpperCase` and
  `toLocaleString` are parameters of the handlers that use them.
-/

namespace WarehouseBackend

/-! ## JavaScript values -/

/-- A JavaScript number. -/
inductive JsNum where
  | nan
  | posInf
  | negInf
  | fin (q : ℚ)
  deriving DecidableEq, Repr

/-- `Number.isFinite` on a number. -/
def JsNum.isFinite : JsNum → Bool
  | .fin _ => true
  | _ => false

/-- A JavaScript value of the kind JSON can carry, plus `undefined`. An object is
the list of its own properties. -/
inductive JsValue where
  | undefined
  | null
  | bool (b : Bool)
  | num (n : JsNum)
  | str (s : String)
  | arr (xs : List JsValue)
  | obj (fields : List (String × JsValue))

/-- The error a JavaScript operation throws. -/
inductive JsError where
  | typeError
  | validation
  | notFound
  deriving DecidableEq, Repr

/-- ToBoolean: `undefined`, `null`, `false`, `0`, `NaN` and `''` are falsy. -/
def JsValue.truthy : JsValue → Bool
  | .undefined => false
  | .null => false
  | .bool b => b
  | .num (.fin q) => decide (q ≠ 0)
  | .num .nan => false
  | .num _ => true
  | .str s => decide (s ≠ "")
  | .arr _ => true
  | .obj _ => true

/-- The JavaScript `a || b`. -/
def JsValue.or (a b : JsValue) : JsValue :=
  if a.truthy then a else b

/-- The test `v == null`: true of `null` and `undefined` only. -/
def JsValue.isNullish : JsValue → Bool
  | .undefined => true
  | .null => true
  | _ => false

/-- The test `v === ''`. -/
def JsValue.isEmptyString : JsValue → Bool
  | .str s => decide (s = "")
  | _ => false

/-- Lookup of an own property in a property list. -/
def lookupField (k : String) : List (String × JsValue) → JsValue
  | [] => .undefined
  | (k', v) :: rest => if k' = k then v else lookupField k rest

/-- Property access `o.k` for the keys this program reads (`addressLine1`,
`city`, `totalSqFt`, `status`, `warehouseId`, ...), none of which is inherited
from a prototype: an object yields its own property, every other non-nullish
value yields `undefined`. The program only reads properties of values that are
never nullish (`x || {}`, or the body the JSON middleware provides). -/
def JsValue.getProp (o : JsValue) (k : String) : JsValue :=
  match o with
  | .obj fields => lookupField k fields
  | _ => .undefined

/-- The code points `String.prototype.trim` and StringToNumber strip: ECMAScript
WhiteSpace (TAB, VT, FF, ZWNBSP and the Unicode space separators) and
LineTerminator (LF, CR, LS, PS). -/
def isJsSpace (c : Char) : Bool :=
  let n := c.toNat
  n == 0x09 || n == 0x0A || n == 0x0B || n == 0x0C || n == 0x0D || n == 0x20 ||
  n == 0xA0 || n == 0x1680 || (0x2000 ≤ n && n ≤ 0x200A) || n == 0x2028 ||
  n == 0x2029 || n == 0x202F || n == 0x205F || n == 0x3000 || n == 0xFEFF

/-- Trimming of a character list at both ends. -/
def trimChars (cs : List Char) : List Char :=
  ((cs.dropWhile isJsSpace).reverse.dropWhile isJsSpace).reverse

/-- The JavaScript `s.trim()`. -/
def jsTrim (s : String) : String :=
  ⟨trimChars s.data⟩

/-! ### StringToNumber -/

/-- Value of a digit of the given base (2, 8, 10 or 16). -/
def digitValue (base : Nat) (c : Char) : Option Nat :=
  let n := c.toNat
  let v : Option Nat :=
    if 48 ≤ n ∧ n ≤ 57 then some (n - 48)
    else if 97 ≤ n ∧ n ≤ 102 then some (n - 87)
    else if 65 ≤ n ∧ n ≤ 70 then some (n - 55)
    else none
  match v with
  | some d => if d < base then some d else none
  | none => none

/-- Value of a digit sequence read left to right, `none` when a character is
not a digit of the base. The empty sequence has value `acc`. -/
def digitsFrom (base : Nat) (acc : Nat) : List Char → Option Nat
  | [] => some acc
  | c :: cs =>
    match digitValue base c with
    | some d => digitsFrom base (acc * base + d) cs
    | none => none

/-- Value of a non-empty digit sequence. -/
def digitsValue (base : Nat) (cs : List Char) : Option Nat :=
  match cs with
  | [] => none
  | _ => digitsFrom base 0 cs

/-- The binary64 overflow threshold: a literal of this magnitude or more rounds
to an infinity. -/
def overflowBound : ℚ := 2 ^ 1024 - 2 ^ 970

/-- A finite literal value as a number, an infinity when out of range. -/
def JsNum.ofRat (q : ℚ) : JsNum :=
  if overflowBound ≤ q then .posInf
  else if q ≤ -overflowBound then .negInf
  else .fin q

/-- The signed integer of an exponent part (`DecimalDigits`, with an optional
sign). -/
def parseExponent (cs : List Char) : Option Int :=
  match cs with
  | '+' :: ds => (digitsValue 10 ds).map Int.ofNat
  | '-' :: ds => (digitsValue 10 ds).map (fun n => - Int.ofNat n)
  | ds => (digitsValue 10 ds).map Int.ofNat

/-- The tail of a decimal literal after its mantissa: nothing, or an exponent
part. -/
def parseExponentPart (cs : List Char) : Option Int :=
  match cs with
  | [] => some 0
  | 'e' :: rest => parseExponent rest
  | 'E' :: rest => parseExponent rest
  | _ => none

/-- The rational `m * 10 ^ e`. -/
def scale10 (m : ℚ) (e : Int) : ℚ :=
  match e with
  | Int.ofNat k => m * (10 : ℚ) ^ k
  | Int.negSucc k => m / (10 : ℚ) ^ (k + 1)

/-- StrUnsignedDecimalLiteral other than `Infinity`: `digits`, `digits.`,
`digits.digits`, `.digits`, each with an optional exponent part. -/
def parseUnsignedDecimal (cs : List Char) : Option ℚ :=
  let isDigit := fun c => (digitValue 10 c).isSome
  let intPart := cs.takeWhile isDigit
  let rest := cs.dropWhile isDigit
  match rest with
  | '.' :: rest' =>
    let fracPart := rest'.takeWhile isDigit
    let tail := rest'.dropWhile isDigit
    if intPart.isEmpty && fracPart.isEmpty then none
    else
      match digitsFrom 10 0 (intPart ++ fracPart), parseExponentPart tail with
      | some m, some e => some (scale10 (m : ℚ) (e - fracPart.length))
      | _, _ => none
  | _ =>
    match digitsValue 10 intPart, parseExponentPart rest with
    | some m, some e => some (scale10 (m : ℚ) e)
    | _, _ => none

/-- StrUnsignedDecimalLiteral. -/
def parseUnsigned (cs : List Char) : Option JsNum :=
  if cs = "Infinity".data then some .posInf
  else (parseUnsignedDecimal cs).map JsNum.ofRat

/-- Negation of a number. -/
def JsNum.neg : JsNum → JsNum
  | .nan => .nan
  | .posInf => .negInf
  | .negInf => .posInf
  | .fin q => .fin (-q)

/-- StrNumericLiteral: a signed decimal literal or an unsigned binary, octal or
hexadecimal integer literal. -/
def parseNumeric (cs : List Char) : Option JsNum :=
  match cs with
  | '0' :: 'x' :: ds => (digitsValue 16 ds).map (fun n => JsNum.ofRat n)
  | '0' :: 'X' :: ds => (digitsValue 16 ds).map (fun n => JsNum.ofRat n)
  | '0' :: 'o' :: ds => (digitsValue 8 ds).map (fun n => JsNum.ofRat n)
  | '0' :: 'O' :: ds => (digitsValue 8 ds).map (fun n => JsNum.ofRat n)
  | '0' :: 'b' :: ds => (digitsValue 2 ds).map (fun n => JsNum.ofRat n)
  | '0' :: 'B' :: ds => (digitsValue 2 ds).map (fun n => JsNum.ofRat n)
  | '+' :: rest => parseUnsigned rest
  | '-' :: rest => (parseUnsigned rest).map JsNum.neg
  | _ => parseUnsigned cs

/-- StringToNumber: surrounding white space is ignored, the empty string is 0,
a numeric literal is its value, anything else is `NaN`. -/
def stringToNumber (s : String) : JsNum :=
  match trimChars s.data with
  | [] => .fin 0
  | cs => (parseNumeric cs).getD .nan

/-! ### ToNumber -/

mutual
/-- Whether ToString (and so ToNumber) of the value throws: a JSON object with
an own `toString` property has no callable `toString`, so OrdinaryToPrimitive
fails with a TypeError; an array throws when one of its elements does. -/
def JsValue.throwsOnToString : JsValue → Bool
  | .obj fields => fields.any (fun kv => kv.1 == "toString")
  | .arr xs => JsValue.anyThrowsOnToString xs
  | _ => false
/-- Whether ToString throws on some element of the list. -/
def JsValue.anyThrowsOnToString : List JsValue → Bool
  | [] => false
  | x :: xs => x.throwsOnToString || JsValue.anyThrowsOnToString xs
end

/-- ToNumber of a value whose ToString does not throw. An array is converted
through its `join(',')`: the empty array gives `''` (0), a one-element array
gives what its element gives as a string (`null` and `undefined` print as `''`,
a number prints as a literal that reads back as itself, a boolean or an object
prints as a non-numeric word), a longer array prints with a comma and is `NaN`.
A plain object prints as `[object Object]` and is `NaN`. -/
def JsValue.toNumberCore : JsValue → JsNum
  | .undefined => .nan
  | .null => .fin 0
  | .bool b => if b then .fin 1 else .fin 0
  | .num n => n
  | .str s => stringToNumber s
  | .obj _ => .nan
  | .arr [] => .fin 0
  | .arr [.undefined] => .fin 0
  | .arr [.null] => .fin 0
  | .arr [.bool _] => .nan
  | .arr [.num n] => n
  | .arr [.str s] => stringToNumber s
  | .arr [.obj _] => .nan
  | .arr [.arr ys] => JsValue.toNumberCore (.arr ys)
  | .arr (_ :: _ :: _) => .nan

/-- The JavaScript `Number(v)`. -/
def JsValue.toNumber (v : JsValue) : Except JsError JsNum :=
  if v.throwsOnToString then .error .typeError else .ok v.toNumberCore

/-! ## Listings and the promotion mapping -/

/-- A row of the Listing table. `title` and `description` are text columns
(`none` is SQL NULL); the wizard blobs are JSON columns. -/
structure Listing where
  id : Nat
  ownerId : Nat
  status : String
  title : Option String
  description : Option String
  address : JsValue
  use : JsValue
  amenities : JsValue
  approvals : JsValue
  qualifications : JsValue
  pricing : JsValue
  hours : JsValue
  services : JsValue

/-- The record handed to `prisma.warehouse.create` by a promotion
(`warehouseData` in the route, `data` in the backfill script). -/
structure WarehouseData where
  ownerId : Nat
  name : String
  address : JsValue
  city : JsValue
  state : JsValue
  pincode : JsValue
  pricePerSqFt : Option JsNum
  totalSpace : Option JsNum
  availableSpace : Option JsNum
  isApproved : Bool
  description : String

/-- The provenance marker of a listing id: the template
`[origin:listing:${id}]` with the id printed in decimal. -/
def originTag (id : Nat) : String :=
  "[origin:listing:" ++ toString id ++ "]"

/-- The fallback label of the template `Listing ${id}`. -/
def listingLabel (id : Nat) : String :=
  "Listing " ++ toString id

/-- The expression `(title && String(title).trim()) || listingLabel`:
a `null` or empty title is falsy, a non-empty one is trimmed, and an empty
result of the trim is falsy again. -/
def promotedName (title : Option String) (id : Nat) : String :=
  let conj : Option String :=
    match title with
    | none => none
    | some t => if t = "" then some t else some (jsTrim t)
  match conj with
  | none => listingLabel id
  | some s => if s = "" then listingLabel id else s

/-- The constant `baseDesc = (description || '').trim()`. -/
def baseDesc (description : Option String) : String :=
  jsTrim (description.getD "")

/-- The description of the promoted warehouse: the trimmed description, a blank
line and the marker, or the marker alone when the trimmed description is
empty. -/
def promotedDescription (description : Option String) (id : Nat) : String :=
  if baseDesc description = "" then originTag id
  else baseDesc description ++ "\n\n" ++ originTag id

/-- The constant `price = listing.pricing || {}`. -/
def priceOf (l : Listing) : JsValue :=
  l.pricing.or (.obj [])

/-- The constant `addr = listing.address || {}`. -/
def addrOf (l : Listing) : JsValue :=
  l.address.or (.obj [])

/-- The route's inline coercion
`v != null && v !== '' ? Number(v) : null` (listings.js, lines 193-204). -/
def coerceOrNull (v : JsValue) : Except JsError (Option JsNum) :=
  if !v.isNullish && !v.isEmptyString then v.toNumber.map some else .ok none

/-- The script's helper `toNumberOrNull` (backfill_promote_listings.js,
lines 8-12). -/
def toNumberOrNull (v : JsValue) : Except JsError (Option JsNum) :=
  if v.isEmptyString || v.isNullish then .ok none
  else v.toNumber.map (fun n => if n.isFinite then some n else none)

/-- The object literal `warehouseData` of PUT /listings/:id (listings.js, lines
179-207), built from the request's `ownerId` and `id` and the updated listing.
The three coercions run in the order of the literal; a thrown error leaves no
record. -/
def routeWarehouseData (ownerId id : Nat) (updated : Listing) :
    Except JsError WarehouseData := do
  let addr := addrOf updated
  let price := priceOf updated
  let name := promotedName updated.title id
  let description := promotedDescription updated.description id
  let pricePerSqFt ← coerceOrNull (price.getProp "ratePerSqFtPerMonth")
  let totalSpace ← coerceOrNull (price.getProp "totalSqFt")
  let availableSpace ← coerceOrNull (price.getProp "totalSqFt")
  pure {
    ownerId := ownerId
    name := name
    address := (addr.getProp "addressLine1").or .null
    city := (addr.getProp "city").or .null
    state := (addr.getProp "state").or .null
    pincode := (addr.getProp "zip").or .null
    pricePerSqFt := pricePerSqFt
    totalSpace := totalSpace
    availableSpace := availableSpace
    isApproved := false
    description := description }

/-- The object literal `data` of the backfill script
(backfill_promote_listings.js, lines 40-59), built from a listing row. -/
def backfillWarehouseData (l : Listing) : Except JsError WarehouseData := do
  let addr := addrOf l
  let price := priceOf l
  let name := promotedName l.title l.id
  let description := promotedDescription l.description l.id
  let pricePerSqFt ← toNumberOrNull (price.getProp "ratePerSqFtPerMonth")
  let totalSpace ← toNumberOrNull (price.getProp "totalSqFt")
  let availableSpace ← toNumberOrNull (price.getProp "totalSqFt")
  pure {
    ownerId := l.ownerId
    name := name
    address := (addr.getProp "addressLine1").or .null
    city := (addr.getProp "city").or .null
    state := (addr.getProp "state").or .null
    pincode := (addr.getProp "zip").or .null
    pricePerSqFt := pricePerSqFt
    totalSpace := totalSpace
    availableSpace := availableSpace
    isApproved := false
    description := description }

/-! ## Access policy -/

/-- The part of a user row the role checks read. -/
structure User where
  id : Nat
  roles : List String

/-- The argument of `requireRole`: one role or an array of roles. -/
inductive RolesArg where
  | one (role : String)
  | many (roles : List String)

/-- The constant `allowed = Array.isArray(roles) ? roles : [roles]`. -/
def RolesArg.allowed : RolesArg → List String
  | .one role => [role]
  | .many roles => roles

/-- What a middleware does with a request: hand it on, or answer it. -/
inductive Verdict where
  | next
  | reject (status : Nat) (error : String)
  deriving DecidableEq, Repr

/-- The middleware `requireRole(roles)` applied to a request whose `req.user`
is `user` (`none`: no user on the request). -/
def requireRole (roles : RolesArg) (user : Option User) : Verdict :=
  let allowed := roles.allowed
  match user with
  | none => .reject 401 "Unauthorized"
  | some u =>
    if u.roles.any (fun r => allowed.contains r) then .next
    else .reject 403 "Forbidden"

/-- A user-like object as the label functions read it: its `roles` array
(`none` when the property is absent) and its legacy single `role`. -/
structure UserLike where
  roles : Option (List String)
  role : Option String

/-- The test `user.roles?.includes(r)`. -/
def UserLike.rolesInclude (u : UserLike) (r : String) : Bool :=
  match u.roles with
  | none => false
  | some rs => rs.contains r

/-- The function `toLegacyRole` of lib/adapters.js. -/
def toLegacyRole (user : UserLike) : String :=
  if user.rolesInclude "ADMIN" then "admin"
  else if user.rolesInclude "WAREHOUSE_OWNER" then "owner"
  else if user.rolesInclude "MERCHANT" then "merchant"
  else "user"

/-- The function `computePrimaryRole` of routes/admin.js. The argument may be
nullish (`none`); `String.prototype.toUpperCase`, a library function, is the
parameter `toUpperCase`. -/
def computePrimaryRole (toUpperCase : String → String) (userLike : Option UserLike) :
    String :=
  let arr : List String :=
    match userLike with
    | none => []
    | some u =>
      match u.roles with
      | some rs => rs
      | none =>
        match u.role with
        | some r => if r = "" then [] else [toUpperCase r]
        | none => []
  if arr.contains "ADMIN" then "admin"
  else if arr.contains "WAREHOUSE_OWNER" then "owner"
  else if arr.contains "MERCHANT" then "merchant"
  else "user"

/-! ## The persistence store -/

/-- A row of the Warehouse table: the promoted or seeded data, the generated
id, and the two columns POST /bookings reads that no creation in the sources
sets. A NULL description is the empty text, which contains no marker. -/
structure WarehouseRow where
  id : Nat
  data : WarehouseData
  status : Option String
  isDisabledByAdmin : Bool

/-- A row of the Booking table. -/
structure Booking where
  id : Nat
  warehouseId : Nat
  merchantId : Nat
  status : String
  deriving DecidableEq, Repr

/-- A row of the BookingEvent table. -/
structure BookingEvent where
  bookingId : Nat
  status : String
  note : Option String
  deriving DecidableEq, Repr

/-- The tables the handlers read and write, each in creation order, and the
autoincrement counters. -/
structure Store where
  listings : List Listing
  warehouses : List WarehouseRow
  bookings : List Booking
  events : List BookingEvent
  nextListingId : Nat
  nextWarehouseId : Nat
  nextBookingId : Nat

/-- What the handlers take from `prisma/schema.prisma`, which is not among the
sources: the values of the enum `ListingStatus` besides `DRAFT` and
`PUBLISHED`, and the column defaults of a new Warehouse row. -/
structure Schema where
  otherListingStatuses : List String
  warehouseStatus : Option String
  warehouseDisabled : Bool

/-- The array `Object.values(ListingStatus)`. -/
def listingStatusValues (sch : Schema) : List String :=
  "DRAFT" :: "PUBLISHED" :: sch.otherListingStatuses

/-- What a handler answers. `thrown` is an error that leaves the handler
(handed to `next` or unhandled); the error middleware is not among the
sources. -/
inductive Response where
  | error (status : Nat) (message : String)
  | listing (status : Nat) (l : Listing)
  | booking (status : Nat) (id : Nat) (uiStatus : String)
  | warehouse (w : WarehouseRow)
  | okTrue
  | thrown (e : JsError)

/-- The call `prisma.warehouse.create({ data })`: a new row with the next id
and the schema defaults. The client's validation of the record against the
column types, which are part of the schema, is not modelled. -/
def createWarehouse (sch : Schema) (s : Store) (d : WarehouseData) : Store :=
  { s with
    warehouses :=
      s.warehouses ++ [⟨s.nextWarehouseId, d, sch.warehouseStatus, sch.warehouseDisabled⟩]
    nextWarehouseId := s.nextWarehouseId + 1 }

/-- Case folding of the store's insensitive comparison, on ASCII letters. -/
def foldCase (s : String) : List Char :=
  s.data.map Char.toLower

/-- Modelled from the spec: the store's case-insensitive substring search
(`contains` with `mode: 'insensitive'`), which belongs to the database client
and is not among the sources. -/
def containsInsensitive (haystack needle : String) : Bool :=
  decide (foldCase needle <:+: foldCase haystack)

/-- The `where` clause of the promotion lookup: same owner, description
containing the marker. -/
def matchesLookup (d : WarehouseData) (ownerId : Nat) (tag : String) : Bool :=
  d.ownerId == ownerId && containsInsensitive d.description tag

/-- The query `prisma.warehouse.findFirst` of the promotion lookup (`already` in
the route, `exists` in the script). -/
def findPromoted (s : Store) (ownerId : Nat) (tag : String) : Option WarehouseRow :=
  s.warehouses.find? (fun w => matchesLookup w.data ownerId tag)

/-- The query `prisma.warehouse.findUnique({ where: { id } })` for an id that is
a JavaScript number. -/
def findWarehouse (s : Store) (id : JsNum) : Option WarehouseRow :=
  s.warehouses.find? (fun w => decide (JsNum.fin (w.id : ℚ) = id))

/-- The query `prisma.listing.findFirst({ where: { id, ownerId } })`. -/
def findListing (s : Store) (id : JsNum) (ownerId : Nat) : Option Listing :=
  s.listings.find? (fun l => decide (JsNum.fin (l.id : ℚ) = id) && l.ownerId == ownerId)

/-- Modelled from the spec: what a text column accepts from a request value:
a string, or `null` for NULL; any other value fails the client's argument
validation (`none`). -/
def textColumn : JsValue → Option (Option String)
  | .str s => some (some s)
  | .null => some none
  | _ => none

/-- The test `v !== undefined`, giving the value to write. -/
def JsValue.defined : JsValue → Option JsValue
  | .undefined => none
  | v => some v

/-- The test `v === s` against a string constant. -/
def JsValue.isString (v : JsValue) (s : String) : Bool :=
  match v with
  | .str t => t == s
  | _ => false

/-- An optional column as written by a creation: a key that is not set leaves
NULL, read back as `null`. -/
def jsonColumn : JsValue → JsValue
  | .undefined => .null
  | v => v

/-- ToBoolean of a number, for the tests `!id`. -/
def JsNum.truthy (n : JsNum) : Bool :=
  (JsValue.num n).truthy

/-! ## The listings router (src/routes/listings.js) -/

/-- The router's middleware: `uid = getUserIdFromAuth(req)` and the test
`!uid`. Token verification belongs to the credential issuer; its outcome is the
parameter (`none`: no token, an invalid token, or an id that is not a number). -/
def listingsUser (auth : Option Nat) : Option Nat :=
  match auth with
  | none => none
  | some uid => if uid = 0 then none else some uid

/-- The test `status && Object.values(ListingStatus).includes(status)`, giving
the status when it passes. -/
def validStatus (sch : Schema) (status : JsValue) : Option String :=
  match status with
  | .str st => if st ≠ "" ∧ st ∈ listingStatusValues sch then some st else none
  | _ => none

/-- The constant `safeStatus` of POST /listings. -/
def safeStatus (sch : Schema) (status : JsValue) : String :=
  (validStatus sch status).getD "DRAFT"

/-- The constant `addressPayload` of POST /listings: the address when it is an
object (`typeof address === 'object'` and truthy), else a minimal default.
`now` is `new Date().toLocaleString()`. -/
def addressPayload (now : String) (address : JsValue) : JsValue :=
  match address with
  | .obj fields => .obj fields
  | .arr xs => .arr xs
  | _ =>
    .obj [("addressLine1", .str ("Draft " ++ now)), ("city", .str ""),
      ("state", .str ""), ("zip", .str "")]

/-- The handler of POST /listings. -/
def postListing (sch : Schema) (s : Store) (auth : Option Nat) (now : String)
    (reqBody : JsValue) : Response × Store :=
  match listingsUser auth with
  | none => (.error 401 "Unauthorized", s)
  | some ownerId =>
    let body := reqBody.or (.obj [])
    let title := (body.getProp "title").or (.str "Untitled Listing")
    let description := jsonColumn (body.getProp "description")
    match textColumn title, textColumn description with
    | some (some t), some d =>
      let created : Listing := {
        id := s.nextListingId
        ownerId := ownerId
        status := safeStatus sch (body.getProp "status")
        title := some t
        description := d
        address := addressPayload now (body.getProp "address")
        use := jsonColumn (body.getProp "use")
        amenities := jsonColumn (body.getProp "amenities")
        approvals := jsonColumn (body.getProp "approvals")
        qualifications := jsonColumn (body.getProp "qualifications")
        pricing := jsonColumn (body.getProp "pricing")
        hours := jsonColumn (body.getProp "hours")
        services := jsonColumn (body.getProp "services") }
      (.listing 201 created,
        { s with listings := s.listings ++ [created], nextListingId := s.nextListingId + 1 })
    | _, _ => (.thrown .validation, s)

/-- The object `data` PUT /listings/:id hands to `prisma.listing.update`: a key
is `none` when the handler does not set it. -/
structure ListingPatch where
  title : Option String
  status : Option String
  address : Option JsValue
  use : Option JsValue
  amenities : Option JsValue
  approvals : Option JsValue
  qualifications : Option JsValue
  pricing : Option JsValue
  hours : Option JsValue
  services : Option JsValue
  description : Option JsValue

/-- How PUT /listings/:id fills `data` from the body (listings.js, lines
134-152). -/
def listingPatch (sch : Schema) (body : JsValue) : ListingPatch where
  title :=
    match body.getProp "title" with
    | .str t => some t
    | _ => none
  status := validStatus sch (body.getProp "status")
  address := (body.getProp "address").defined
  use := (body.getProp "use").defined
  amenities := (body.getProp "amenities").defined
  approvals := (body.getProp "approvals").defined
  qualifications := (body.getProp "qualifications").defined
  pricing := (body.getProp "pricing").defined
  hours := (body.getProp "hours").defined
  services := (body.getProp "services").defined
  description := (body.getProp "description").defined

/-- The text an update writes to the description column: the old text when the
key is not set, `none` when the value is not text. -/
def descriptionWrite (old : Option String) (v : Option JsValue) : Option (Option String) :=
  match v with
  | none => some old
  | some x => textColumn x

/-- The call `prisma.listing.update({ where: { id }, data })` on a row with that
id: the row with the set keys replaced, `none` when the client rejects the
data. -/
def applyPatch (l : Listing) (p : ListingPatch) : Option Listing :=
  match descriptionWrite l.description p.description with
  | none => none
  | some d =>
    some { l with
      title := (p.title.map some).getD l.title
      status := p.status.getD l.status
      address := p.address.getD l.address
      use := p.use.getD l.use
      amenities := p.amenities.getD l.amenities
      approvals := p.approvals.getD l.approvals
      qualifications := p.qualifications.getD l.qualifications
      pricing := p.pricing.getD l.pricing
      hours := p.hours.getD l.hours
      services := p.services.getD l.services
      description := d }

/-- The listing table after the update of the rows with the given id. -/
def updateListings (ls : List Listing) (id : Nat) (p : ListingPatch) : List Listing :=
  ls.map (fun l => if l.id = id then (applyPatch l p).getD l else l)

/-- The constant `justPublished` of PUT /listings/:id. -/
def justPublished (body : JsValue) (existing : Listing) : Bool :=
  (body.getProp "status").isString "PUBLISHED" && existing.status != "PUBLISHED"

/-- The handler of PUT /listings/:id. `idParam` is `Number(req.params.id)`; the
marker and the record are built from the id of the row the lookup found, which
is the number `idParam`. -/
def putListing (sch : Schema) (s : Store) (auth : Option Nat) (idParam : JsNum)
    (reqBody : JsValue) : Response × Store :=
  match listingsUser auth with
  | none => (.error 401 "Unauthorized", s)
  | some ownerId =>
    if !idParam.isFinite then (.error 400 "Invalid id", s)
    else
      match findListing s idParam ownerId with
      | none => (.error 404 "Listing not found", s)
      | some existing =>
        let body := reqBody.or (.obj [])
        let data := listingPatch sch body
        match applyPatch existing data with
        | none => (.thrown .validation, s)
        | some updated =>
          let s1 := { s with listings := updateListings s.listings existing.id data }
          if justPublished body existing then
            match findPromoted s1 ownerId (originTag existing.id) with
            | some _ => (.listing 200 updated, s1)
            | none =>
              match routeWarehouseData ownerId existing.id updated with
              | .error e => (.thrown e, s1)
              | .ok warehouseData =>
                (.listing 200 updated, createWarehouse sch s1 warehouseData)
          else (.listing 200 updated, s1)

/-! ## The backfill script (scripts/backfill_promote_listings.js) -/

/-- The loop of `run` over the listings still to process, with the counters so
far. The result is the store after the run and the counts the final line
reports, or the error that ended the run. -/
def backfillLoop (sch : Schema) (dry : Bool) :
    List Listing → Store → Nat → Nat → Store × Except JsError (Nat × Nat)
  | [], s, created, skipped => (s, .ok (created, skipped))
  | l :: rest, s, created, skipped =>
    match findPromoted s l.ownerId (originTag l.id) with
    | some _ => backfillLoop sch dry rest s created (skipped + 1)
    | none =>
      match backfillWarehouseData l with
      | .error e => (s, .error e)
      | .ok data =>
        if dry then backfillLoop sch dry rest s (created + 1) skipped
        else backfillLoop sch dry rest (createWarehouse sch s data) (created + 1) skipped

/-- The published listings in the order the query returns them. The listing
rows carry no timestamp, so the ordering `orderBy: { updatedAt: 'asc' }` is the
parameter `orderBy`. -/
def publishedListings (orderBy : List Listing → List Listing) (s : Store) : List Listing :=
  orderBy (s.listings.filter (fun l => l.status == "PUBLISHED"))

/-- The function `run` of the script; `dry` is the constant `DRY`. -/
def run (sch : Schema) (orderBy : List Listing → List Listing) (dry : Bool) (s : Store) :
    Store × Except JsError (Nat × Nat) :=
  backfillLoop sch dry (publishedListings orderBy s) s 0 0

/-! ## The bookings router (src/routes/bookings.js) and the alias POST /book -/

/-- The query `prisma.booking.findUnique({ where: { id } })`. -/
def findBooking (s : Store) (id : JsNum) : Option Booking :=
  s.bookings.find? (fun b => decide (JsNum.fin (b.id : ℚ) = id))

/-- The guard of POST /bookings (bookings.js, line 18):
`!wh || wh.status !== 'PUBLISHED' || !wh.isApproved || wh.isDisabledByAdmin`. -/
def notBookable (wh : Option WarehouseRow) : Bool :=
  match wh with
  | none => true
  | some w => w.status != some "PUBLISHED" || !w.data.isApproved || w.isDisabledByAdmin

/-- The handler chain of POST /bookings: `auth()`, `requireRole('MERCHANT')`,
the handler. `user` is what `auth()` puts on the request (`none`: it answers
401). -/
def postBooking (s : Store) (user : Option User) (body : JsValue) : Response × Store :=
  match user with
  | none => (.error 401 "Unauthorized", s)
  | some u =>
    match requireRole (.one "MERCHANT") (some u) with
    | .reject status error => (.error status error, s)
    | .next =>
      match (body.getProp "warehouseId").toNumber with
      | .error e => (.thrown e, s)
      | .ok warehouseId =>
        match findWarehouse s warehouseId with
        | none => (.error 400 "Warehouse not bookable", s)
        | some wh =>
          if notBookable (some wh) then (.error 400 "Warehouse not bookable", s)
          else
            (.booking 201 s.nextBookingId "pending",
              { s with
                bookings := s.bookings ++ [⟨s.nextBookingId, wh.id, u.id, "PENDING"⟩]
                events := s.events ++ [⟨s.nextBookingId, "PENDING", none⟩]
                nextBookingId := s.nextBookingId + 1 })

/-- The natural number a JavaScript number is, if it is one. -/
def JsNum.toNat? : JsNum → Option Nat
  | .fin q => if q.den = 1 ∧ 0 ≤ q.num then some q.num.toNat else none
  | _ => none

/-- What POST /book finds in the `authorization` header: no token, a token that
does not verify, or a verified token, of which `uid` is
`Number(payload.id ?? payload.userId)`. -/
inductive BookToken where
  | missing
  | invalid
  | verified (uid : JsNum)

/-- The handler of POST /book (server.js, lines 101-140). The creation fails in
the store when the merchant id is not an id or no warehouse has the given id;
the user table is not modelled. -/
def postBook (s : Store) (token : BookToken) (reqBody : JsValue) : Response × Store :=
  match token with
  | .missing => (.error 401 "Unauthorized", s)
  | .invalid => (.error 401 "Invalid token", s)
  | .verified uid =>
    let warehouseId := (reqBody.or (.obj [])).getProp "warehouseId"
    if !warehouseId.truthy then (.error 400 "warehouseId is required", s)
    else if !uid.isFinite then (.error 401 "Invalid token payload", s)
    else
      match warehouseId.toNumber with
      | .error e => (.thrown e, s)
      | .ok wid =>
        match uid.toNat?, findWarehouse s wid with
        | some merchantId, some wh =>
          (.booking 200 s.nextBookingId "PENDING",
            { s with
              bookings := s.bookings ++ [⟨s.nextBookingId, wh.id, merchantId, "PENDING"⟩]
              nextBookingId := s.nextBookingId + 1 })
        | _, _ => (.thrown .validation, s)

/-- The array `allowed` of PUT /bookings/:id (bookings.js, lines 115-117). -/
def allowedTargets (status : String) : List String :=
  if status = "PENDING" then ["ACCEPTED", "REJECTED", "CANCELED"]
  else if status = "ACCEPTED" then ["CANCELED"]
  else []

/-- The function `ui` of bookings.js, `s.toLowerCase()`, on ASCII letters:
every status it is applied to is an ASCII word. -/
def ui (s : String) : String :=
  ⟨s.data.map Char.toLower⟩

/-- The handler chain of PUT /bookings/:id. `idParam` is
`Number(req.params.id)` and `toStatus` is the constant `to`,
`String(req.body.status || '').toUpperCase()`. -/
def putBooking (s : Store) (user : Option User) (idParam : JsNum) (toStatus : String) :
    Response × Store :=
  match user with
  | none => (.error 401 "Unauthorized", s)
  | some u =>
    match findBooking s idParam with
    | none => (.error 404 "Not found", s)
    | some b =>
      match findWarehouse s (.fin b.warehouseId) with
      | none => (.thrown .typeError, s)
      | some wh =>
        let isOwner := u.roles.contains "WAREHOUSE_OWNER" && u.id == wh.data.ownerId
        if !(u.roles.contains "ADMIN" || isOwner) then (.error 403 "Forbidden", s)
        else if !(allowedTargets b.status).contains toStatus then
          (.error 422 "Invalid transition", s)
        else
          (.booking 200 b.id (ui toStatus),
            { s with
              bookings := s.bookings.map (fun x =>
                if x.id = b.id then { x with status := toStatus } else x)
              events := s.events ++ [⟨b.id, toStatus, none⟩] })

/-- The handler chain of POST /bookings/message. `bookingId` is
`Number(bookingId)` and `message` is the text of `message || ''`. The call of
`sendEmail` is modelled from the spec, `lib/email.js` not being among the
sources: the notification sender logs its failures, does not throw, and changes
no table. -/
def postMessage (s : Store) (user : Option User) (bookingId : JsNum) (message : String) :
    Response × Store :=
  match user with
  | none => (.error 401 "Unauthorized", s)
  | some u =>
    match requireRole (.one "WAREHOUSE_OWNER") (some u) with
    | .reject status error => (.error status error, s)
    | .next =>
      match findBooking s bookingId with
      | none => (.error 403 "Forbidden", s)
      | some b =>
        match findWarehouse s (.fin b.warehouseId) with
        | none => (.thrown .typeError, s)
        | some wh =>
          if wh.data.ownerId != u.id then (.error 403 "Forbidden", s)
          else
            (.okTrue,
              { s with
                events := s.events ++ [⟨b.id, b.status, some ("OWNER_MSG: " ++ message)⟩] })

/-! ## Warehouse administration (src/routes/admin.js, src/routes/warehouses.js) -/

/-- The middleware of the admin router. `dbRoles` is `none` when the request
has no valid token or the token has no user id, and otherwise the roles of the
token's user in the database (`[]` when there is no such user). -/
def adminGate (dbRoles : Option (List String)) : Verdict :=
  match dbRoles with
  | none => .reject 401 "Unauthorized"
  | some roles => if roles.contains "ADMIN" then .next else .reject 403 "Forbidden"

/-- The handler of PUT /admin/warehouses/:id/approve behind the admin
middleware. `idParam` is `Number(req.params.id)`. -/
def adminApprove (s : Store) (dbRoles : Option (List String)) (idParam : JsNum)
    (reqBody : JsValue) : Response × Store :=
  match adminGate dbRoles with
  | .reject status error => (.error status error, s)
  | .next =>
    let isApproved := (reqBody.getProp "isApproved").truthy
    if !idParam.truthy then (.error 400 "Invalid warehouse id", s)
    else
      match findWarehouse s idParam with
      | none => (.thrown .notFound, s)
      | some wh =>
        let updated : WarehouseRow := { wh with data := { wh.data with isApproved := isApproved } }
        (.warehouse updated,
          { s with warehouses := s.warehouses.map (fun w => if w.id = wh.id then updated else w) })

/-- The call `prisma.warehouse.delete({ where: { id } })`. Referential actions
on the bookings of the warehouse are part of the schema and are not
modelled. -/
def deleteWarehouseRow (s : Store) (idParam : JsNum) : Response × Store :=
  match findWarehouse s idParam with
  | none => (.thrown .notFound, s)
  | some wh => (.okTrue, { s with warehouses := s.warehouses.filter (fun w => w.id != wh.id) })

/-- The handler of DELETE /admin/warehouses/:id behind the admin middleware. -/
def adminDeleteWarehouse (s : Store) (dbRoles : Option (List String)) (idParam : JsNum) :
    Response × Store :=
  match adminGate dbRoles with
  | .reject status error => (.error status error, s)
  | .next =>
    if !idParam.truthy then (.error 400 "Invalid warehouse id", s)
    else deleteWarehouseRow s idParam

/-- The handler of DELETE /warehouses/:id. -/
def deleteWarehouse (s : Store) (idParam : JsNum) : Response × Store :=
  if !idParam.truthy then (.error 400 "Invalid id", s)
  else deleteWarehouseRow s idParam

/-! ## Operations on the store -/

/-- A request to one of the handlers that write the store, or a run of the
backfill script. -/
inductive Op where
  | postListing (auth : Option Nat) (now : String) (body : JsValue)
  | putListing (auth : Option Nat) (idParam : JsNum) (body : JsValue)
  | backfill (orderBy : List Listing → List Listing) (dry : Bool)
  | postBooking (user : Option User) (body : JsValue)
  | postBook (token : BookToken) (body : JsValue)
  | putBooking (user : Option User) (idParam : JsNum) (toStatus : String)
  | postMessage (user : Option User) (bookingId : JsNum) (message : String)
  | adminApprove (dbRoles : Option (List String)) (idParam : JsNum) (body : JsValue)
  | adminDeleteWarehouse (dbRoles : Option (List String)) (idParam : JsNum)
  | deleteWarehouse (idParam : JsNum)

/-- The store after an operation. -/
def step (sch : Schema) (s : Store) : Op → Store
  | .postListing auth now body => (postListing sch s auth now body).2
  | .putListing auth idParam body => (putListing sch s auth idParam body).2
  | .backfill orderBy dry => (run sch orderBy dry s).1
  | .postBooking user body => (postBooking s user body).2
  | .postBook token body => (postBook s token body).2
  | .putBooking user idParam toStatus => (putBooking s user idParam toStatus).2
  | .postMessage user bookingId message => (postMessage s user bookingId message).2
  | .adminApprove dbRoles idParam body => (adminApprove s dbRoles idParam body).2
  | .adminDeleteWarehouse dbRoles idParam => (adminDeleteWarehouse s dbRoles idParam).2
  | .deleteWarehouse idParam => (deleteWarehouse s idParam).2

/-- The store after a sequence of operations. -/
def steps (sch : Schema) (s : Store) (ops : List Op) : Store :=
  ops.foldl (step sch) s

/-- Whether the operation is an approval of the warehouse with the given id
that takes effect: a request to the approve route that passes the admin
middleware, names the id and carries a truthy `isApproved`. -/
def Op.approves (id : Nat) : Op → Bool
  | .adminApprove dbRoles idParam body =>
    decide (adminGate dbRoles = .next) && decide (idParam = .fin (id : ℚ)) &&
      (body.getProp "isApproved").truthy
  | _ => false

/-! ## Notions used in the statements -/

/-- A text is blank when each of its characters is white space; the empty text
is blank. -/
def isBlank (s : String) : Bool :=
  s.data.all isJsSpace

/-- What PUT /listings/:id may change in a listing row: not the id, not the
owner, and the status only to a value of `ListingStatus`. -/
def ListingFrame (sch : Schema) (l l' : Listing) : Prop :=
  l'.id = l.id ∧ l'.ownerId = l.ownerId ∧
    (l'.status = l.status ∨ l'.status ∈ listingStatusValues sch)

/-- The autoincrement counter is above every warehouse id in the table. -/
def FreshIds (s : Store) : Prop :=
  ∀ r, r ∈ s.warehouses → r.id < s.nextWarehouseId

/-- No row with the given id is approved. -/
def Unapproved (w : Nat) (s : Store) : Prop :=
  ∀ r, r ∈ s.warehouses → r.id = w → r.data.isApproved = false

/-- No record the run builds for one listing of the list matches the marker
lookup of a listing processed after it. -/
def NoCrossMatch (ls : List Listing) : Prop :=
  ls.Pairwise (fun l l' =>
    ∀ d, backfillWarehouseData l = .ok d → matchesLookup d l'.ownerId (originTag l'.id) = false)

/-- The pairs of the transition table of section 4.2 of the specification. -/
def inTransitionTable (status target : String) : Prop :=
  (status = "PENDING" ∧ (target = "ACCEPTED" ∨ target = "REJECTED" ∨ target = "CANCELED")) ∨
    (status = "ACCEPTED" ∧ target = "CANCELED")

/-- Who may request a transition of a booking of the warehouse (bookings.js,
lines 111-112): an ADMIN, or a WAREHOUSE_OWNER whose id is the warehouse's
`ownerId`. -/
def mayTransition (u : User) (wh : WarehouseRow) : Bool :=
  u.roles.contains "ADMIN" || (u.roles.contains "WAREHOUSE_OWNER" && u.id == wh.data.ownerId)

/-- The store after a sequence of requests to PUT /listings/:id by one user on
one listing id, one request per body. -/
def putAll (sch : Schema) (s : Store) (auth : Option Nat) (idParam : JsNum)
    (bodies : List JsValue) : Store :=
  bodies.foldl (fun st body => (putListing sch st auth idParam body).2) s

/-- The status events of a booking in the order of their creation: its events
that carry no note. -/
def statusEvents (s : Store) (bookingId : Nat) : List BookingEvent :=
  s.events.filter (fun e => e.bookingId == bookingId && e.note.isNone)

/-- The status of every booking is the status of its last status event. -/
def StatusExplained (s : Store) : Prop :=
  ∀ b, b ∈ s.bookings →
    ((statusEvents s b.id).getLast?).map BookingEvent.status = some b.status

/-- The autoincrement counter is above the id of every booking and above the
booking id of every event. -/
def FreshBookingIds (s : Store) : Prop :=
  (∀ b, b ∈ s.bookings → b.id < s.nextBookingId) ∧
    (∀ e, e ∈ s.events → e.bookingId < s.nextBookingId)

/-- Whether the operation is a request to the alias POST /book. -/
def Op.isPostBook : Op → Bool
  | .postBook _ _ => true
  | _ => false

/-! ## Example rows -/

/-- Listing #7 of the scenario: published with an empty `pricing.totalSqFt`. -/
def listing7 : Listing where
  id := 7
  ownerId := 2
  status := "PUBLISHED"
  title := some "Okhla Ambient Storage"
  description := none
  address := .obj [("addressLine1", .str "A-12, Okhla Phase II"), ("city", .str "Delhi")]
  use := .null
  amenities := .null
  approvals := .null
  qualifications := .null
  pricing := .obj [("totalSqFt", .str ""), ("ratePerSqFtPerMonth", .num (.fin (45 / 2)))]
  hours := .null
  services := .null

/-- A published listing whose title and description carry surrounding
blanks. -/
def paddedListing : Listing where
  id := 8
  ownerId := 2
  status := "PUBLISHED"
  title := some " Okhla Hub "
  description := some " Clean storage. "
  address := .null
  use := .null
  amenities := .null
  approvals := .null
  qualifications := .null
  pricing := .null
  hours := .null
  services := .null

/-- A published listing whose pricing values are not numeric. -/
def nonNumericListing : Listing where
  id := 9
  ownerId := 2
  status := "PUBLISHED"
  title := some "Peenya Shed"
  description := none
  address := .null
  use := .null
  amenities := .null
  approvals := .null
  qualifications := .null
  pricing := .obj [("totalSqFt", .str "abc"), ("ratePerSqFtPerMonth", .str "n/a")]
  hours := .null
  services := .null

/-- The schema used in the examples: no further listing status, and a new
warehouse row that is PUBLISHED and not disabled. -/
def exampleSchema : Schema where
  otherListingStatuses := []
  warehouseStatus := some "PUBLISHED"
  warehouseDisabled := false

/-- The store with no rows. -/
def emptyStore : Store where
  listings := []
  warehouses := []
  bookings := []
  events := []
  nextListingId := 1
  nextWarehouseId := 1
  nextBookingId := 1

/-- A store whose only row is Listing #7, owned by user 2. -/
def storeWithListing7 : Store :=
  { emptyStore with listings := [listing7], nextListingId := 8 }

/-- Listing #7 while still a draft. -/
def draftListing7 : Listing :=
  { listing7 with status := "DRAFT" }

/-- A store whose only row is the draft Listing #7, owned by user 2. -/
def storeWithDraft7 : Store :=
  { emptyStore with listings := [draftListing7], nextListingId := 8 }

/-- A store with two published listings of user 2 that no warehouse stems
from: Listing #7 and the listing with the padded texts. -/
def storeWithTwoPublished : Store :=
  { emptyStore with listings := [listing7, paddedListing], nextListingId := 9 }

/-- A published listing of user 2 whose description quotes the marker of
Listing #7. -/
def quotingListing : Listing :=
  { paddedListing with id := 5, description := some "Overflow of [origin:listing:7]" }

/-- A store with the quoting listing and Listing #7, both published, and no
warehouse. -/
def storeWithQuote : Store :=
  { emptyStore with listings := [quotingListing, listing7], nextListingId := 8 }

/-- Warehouse 1 of the seed: owned by user 2, PUBLISHED, approved, not
disabled. -/
def approvedWarehouse : WarehouseRow where
  id := 1
  data := {
    ownerId := 2
    name := "Okhla Logistics Hub"
    address := .str "A-12, Okhla Phase II"
    city := .str "Delhi"
    state := .str "DL"
    pincode := .str "110020"
    pricePerSqFt := some (.fin (45 / 2))
    totalSpace := some (.fin 20000)
    availableSpace := some (.fin 14000)
    isApproved := true
    description := "Ambient storage with easy truck access." }
  status := some "PUBLISHED"
  isDisabledByAdmin := false

/-- A store with warehouse 1 and no booking. -/
def storeWithWarehouse : Store :=
  { emptyStore with warehouses := [approvedWarehouse], nextWarehouseId := 2 }

/-- A store with warehouse 1 and the PENDING booking 1 of merchant 5 with its
creation event. -/
def storeWithBooking : Store :=
  { storeWithWarehouse with
    bookings := [⟨1, 1, 5, "PENDING"⟩]
    events := [⟨1, "PENDING", none⟩]
    nextBookingId := 2 }

/-- The owner of warehouse 1. -/
def ownerUser : User := ⟨2, ["WAREHOUSE_OWNER"]⟩

/-- A merchant. -/
def merchantUser : User := ⟨5, ["MERCHANT"]⟩

/-- The owner of warehouse 1 as a user who holds MERCHANT only: the listings
router asks for no role, so a promotion can make such a user an owner. -/
def ownerWithoutRole : User := ⟨2, ["MERCHANT"]⟩

/-! ## Theorems -/

/-! ### The promotion mapping -/

/-- The route builds a record exactly from two successful coercions. -/
theorem routeWarehouseData_ok_iff (ownerId id : Nat) (l : Listing) (w : WarehouseData) :
    routeWarehouseData ownerId id l = .ok w ↔
      ∃ p t, coerceOrNull ((priceOf l).getProp "ratePerSqFtPerMonth") = .ok p ∧
        coerceOrNull ((priceOf l).getProp "totalSqFt") = .ok t ∧
        w = {
          ownerId := ownerId
          name := promotedName l.title id
          address := ((addrOf l).getProp "addressLine1").or .null
          city := ((addrOf l).getProp "city").or .null
          state := ((addrOf l).getProp "state").or .null
          pincode := ((addrOf l).getProp "zip").or .null
          pricePerSqFt := p
          totalSpace := t
          availableSpace := t
          isApproved := false
          description := promotedDescription l.description id } := by
  cases hp : coerceOrNull ((priceOf l).getProp "ratePerSqFtPerMonth") with
  | error e => simp [routeWarehouseData, bind, Except.bind, hp]
  | ok p =>
    cases ht : coerceOrNull ((priceOf l).getProp "totalSqFt") with
    | error e => simp [routeWarehouseData, bind, Except.bind, hp, ht]
    | ok t =>
      simp only [routeWarehouseData, bind, Except.bind, pure, Except.pure, hp, ht]
      constructor
      · intro h
        exact ⟨p, t, rfl, rfl, (Except.ok.inj h).symm⟩
      · rintro ⟨p', t', hp', ht', hw⟩
        cases Except.ok.inj hp'
        cases Except.ok.inj ht'
        rw [hw]

/-- The script builds a record exactly from two successful coercions. -/
theorem backfillWarehouseData_ok_iff (l : Listing) (w : WarehouseData) :
    backfillWarehouseData l = .ok w ↔
      ∃ p t, toNumberOrNull ((priceOf l).getProp "ratePerSqFtPerMonth") = .ok p ∧
        toNumberOrNull ((priceOf l).getProp "totalSqFt") = .ok t ∧
        w = {
          ownerId := l.ownerId
          name := promotedName l.title l.id
          address := ((addrOf l).getProp "addressLine1").or .null
          city := ((addrOf l).getProp "city").or .null
          state := ((addrOf l).getProp "state").or .null
          pincode := ((addrOf l).getProp "zip").or .null
          pricePerSqFt := p
          totalSpace := t
          availableSpace := t
          isApproved := false
          description := promotedDescription l.description l.id } := by
  cases hp : toNumberOrNull ((priceOf l).getProp "ratePerSqFtPerMonth") with
  | error e => simp [backfillWarehouseData, bind, Except.bind, hp]
  | ok p =>
    cases ht : toNumberOrNull ((priceOf l).getProp "totalSqFt") with
    | error e => simp [backfillWarehouseData, bind, Except.bind, hp, ht]
    | ok t =>
      simp only [backfillWarehouseData, bind, Except.bind, pure, Except.pure, hp, ht]
      constructor
      · intro h
        exact ⟨p, t, rfl, rfl, (Except.ok.inj h).symm⟩
      · rintro ⟨p', t', hp', ht', hw⟩
        cases Except.ok.inj hp'
        cases Except.ok.inj ht'
        rw [hw]

/-- The route's coercion throws only where `Number` throws. -/
theorem coerceOrNull_ok (v : JsValue) (h : v.throwsOnToString = false) :
    ∃ r, coerceOrNull v = .ok r := by
  unfold coerceOrNull JsValue.toNumber
  split <;> simp [h, Except.map]

/-- The script's coercion throws only where `Number` throws. -/
theorem toNumberOrNull_ok (v : JsValue) (h : v.throwsOnToString = false) :
    ∃ r, toNumberOrNull v = .ok r := by
  unfold toNumberOrNull JsValue.toNumber
  split <;> simp [h, Except.map]

/-- The decimal numeral `20000` reads as the number 20000. -/
theorem stringToNumber_20000 : stringToNumber "20000" = .fin 20000 := by
  simp [stringToNumber, trimChars, isJsSpace, parseNumeric, parseUnsigned, parseUnsignedDecimal,
    digitValue, digitsValue, digitsFrom, parseExponentPart, scale10, JsNum.ofRat, overflowBound]
  norm_num

/-- Both coercions read the string `20000` as the number 20000. -/
theorem coerce_string_20000 :
    coerceOrNull (.str "20000") = .ok (some (.fin 20000)) ∧
    toNumberOrNull (.str "20000") = .ok (some (.fin 20000)) := by
  have h : (JsValue.str "20000").toNumber = .ok (.fin 20000) := by
    simp [JsValue.toNumber, JsValue.throwsOnToString, JsValue.toNumberCore, stringToNumber_20000]
  constructor
  · simp [coerceOrNull, JsValue.isNullish, JsValue.isEmptyString, h, Except.map]
  · simp [toNumberOrNull, JsValue.isNullish, JsValue.isEmptyString, h, Except.map, JsNum.isFinite]

/-- C11. Route and script: a built record has `totalSpace` equal to
`availableSpace`, both the coercion of `pricing.totalSqFt`; that coercion is
`null`, without an error, for the empty string, `null` and an absent value, is
`Number(v)` otherwise (in the script: when that is finite), and is 20000 for
the number 20000 and for the string `20000`; and the record is built whenever
neither pricing value makes `Number` throw. -/
theorem promoted_totalSpace_availableSpace (ownerId id : Nat) (l : Listing) :
    (∀ w, routeWarehouseData ownerId id l = .ok w →
      w.totalSpace = w.availableSpace ∧
      coerceOrNull ((priceOf l).getProp "totalSqFt") = .ok w.totalSpace) ∧
    (∀ w, backfillWarehouseData l = .ok w →
      w.totalSpace = w.availableSpace ∧
      toNumberOrNull ((priceOf l).getProp "totalSqFt") = .ok w.totalSpace) ∧
    (∀ t : JsValue, t = .str "" ∨ t = .null ∨ t = .undefined →
      coerceOrNull t = .ok none ∧ toNumberOrNull t = .ok none) ∧
    (∀ t : JsValue, t.isNullish = false → t.isEmptyString = false →
      coerceOrNull t = t.toNumber.map some ∧
      toNumberOrNull t = t.toNumber.map (fun n => if n.isFinite then some n else none)) ∧
    (coerceOrNull (.num (.fin 20000)) = .ok (some (.fin 20000)) ∧
      toNumberOrNull (.num (.fin 20000)) = .ok (some (.fin 20000))) ∧
    (coerceOrNull (.str "20000") = .ok (some (.fin 20000)) ∧
      toNumberOrNull (.str "20000") = .ok (some (.fin 20000))) ∧
    (((priceOf l).getProp "ratePerSqFtPerMonth").throwsOnToString = false →
      ((priceOf l).getProp "totalSqFt").throwsOnToString = false →
      (∃ w, routeWarehouseData ownerId id l = .ok w) ∧
      (∃ w, backfillWarehouseData l = .ok w)) := by
  refine ⟨?_, ?_, ?_, ?_, ?_, coerce_string_20000, ?_⟩
  · intro w hw
    obtain ⟨p, t, -, ht, rfl⟩ := (routeWarehouseData_ok_iff ownerId id l w).1 hw
    exact ⟨rfl, ht⟩
  · intro w hw
    obtain ⟨p, t, -, ht, rfl⟩ := (backfillWarehouseData_ok_iff l w).1 hw
    exact ⟨rfl, ht⟩
  · rintro t (rfl | rfl | rfl) <;> exact ⟨rfl, rfl⟩
  · intro t h1 h2
    simp [coerceOrNull, toNumberOrNull, h1, h2]
  · exact ⟨rfl, rfl⟩
  · intro hr ht
    obtain ⟨p, hp⟩ := coerceOrNull_ok _ hr
    obtain ⟨t, ht'⟩ := coerceOrNull_ok _ ht
    obtain ⟨p', hp'⟩ := toNumberOrNull_ok _ hr
    obtain ⟨t', ht''⟩ := toNumberOrNull_ok _ ht
    exact ⟨⟨_, (routeWarehouseData_ok_iff ownerId id l _).2 ⟨p, t, hp, ht', rfl⟩⟩,
      ⟨_, (backfillWarehouseData_ok_iff l _).2 ⟨p', t', hp', ht'', rfl⟩⟩⟩

/-- C11 at Listing #7, whose `pricing.totalSqFt` is the empty string: route and
script build a record, with `totalSpace` and `availableSpace` both `null`. -/
theorem promoted_totalSpace_listing7 :
    (∃ w, routeWarehouseData 2 7 listing7 = .ok w ∧
      w.totalSpace = none ∧ w.availableSpace = none) ∧
    (∃ w, backfillWarehouseData listing7 = .ok w ∧
      w.totalSpace = none ∧ w.availableSpace = none) := by
  have h := promoted_totalSpace_availableSpace 2 7 listing7
  obtain ⟨hroute, hscript, hnull, -, -, -, hbuilt⟩ := h
  obtain ⟨⟨w, hw⟩, ⟨w', hw'⟩⟩ := hbuilt rfl rfl
  have e1 := (hnull (.str "") (Or.inl rfl)).1
  have e2 := (hnull (.str "") (Or.inl rfl)).2
  refine ⟨⟨w, hw, ?_, ?_⟩, ⟨w', hw', ?_, ?_⟩⟩
  · have := (hroute w hw).2
    exact (Except.ok.inj (this.symm.trans e1))
  · have := hroute w hw
    rw [← this.1]
    exact (Except.ok.inj (this.2.symm.trans e1))
  · have := (hscript w' hw').2
    exact (Except.ok.inj (this.symm.trans e2))
  · have := hscript w' hw'
    rw [← this.1]
    exact (Except.ok.inj (this.2.symm.trans e2))

/-- Trimming leaves nothing exactly when every character is white space. -/
theorem trimChars_eq_nil_iff (cs : List Char) :
    trimChars cs = [] ↔ ∀ c ∈ cs, isJsSpace c = true := by
  have h1 : trimChars cs = List.rdropWhile isJsSpace (cs.dropWhile isJsSpace) := rfl
  rw [h1, List.rdropWhile_eq_nil_iff]
  constructor
  · intro h
    apply List.dropWhile_eq_nil_iff.1
    by_contra hne
    have hnot := List.head_dropWhile_not isJsSpace cs hne
    have hyes := h _ (List.head_mem hne)
    rw [hnot] at hyes
    exact Bool.false_ne_true hyes
  · intro h x hx
    rw [List.dropWhile_eq_nil_iff.2 h] at hx
    cases hx

/-- The trim of a text is empty exactly when the text is blank. -/
theorem jsTrim_eq_empty_iff (s : String) : jsTrim s = "" ↔ isBlank s = true := by
  unfold jsTrim isBlank
  rw [List.all_eq_true, ← trimChars_eq_nil_iff]
  constructor
  · intro h
    exact congrArg String.data h
  · intro h
    rw [h]

/-- The trim of a text that is not blank is not empty. -/
theorem jsTrim_ne_empty (s : String) (h : isBlank s = false) : jsTrim s ≠ "" := by
  intro he
  rw [(jsTrim_eq_empty_iff s).1 he] at h
  exact Bool.noConfusion h

/-- The empty text is blank. -/
theorem isBlank_empty : isBlank "" = true := rfl

/-- The fallback label is never empty. -/
theorem listingLabel_ne_empty (id : Nat) : listingLabel id ≠ "" := by
  intro h
  have hl := congrArg String.length h
  rw [listingLabel, String.length_append] at hl
  have h8 : ("Listing ".length : Nat) = 8 := by decide
  have h0 : ("".length : Nat) = 0 := by decide
  omega

/-- The name a promotion gives: the trimmed title, or the label when the title
is `null` or blank. -/
theorem promotedName_eq (title : Option String) (id : Nat) :
    promotedName title id =
      match title with
      | none => listingLabel id
      | some t => if isBlank t then listingLabel id else jsTrim t := by
  cases title with
  | none => rfl
  | some t =>
    by_cases hb : isBlank t = true
    · have ht := (jsTrim_eq_empty_iff t).2 hb
      by_cases h0 : t = ""
      · subst h0
        simp [promotedName, isBlank_empty]
      · simp [promotedName, h0, ht, hb]
    · have hb' : isBlank t = false := by simpa using hb
      have ht := jsTrim_ne_empty t hb'
      have h0 : t ≠ "" := by
        intro h0
        rw [h0] at hb'
        exact Bool.noConfusion (isBlank_empty.symm.trans hb')
      simp [promotedName, h0, ht, hb']

/-- C12, as amended. Route and script: the name of a built record is the
listing's title with the white space at both ends removed when the title is not
blank (the title itself when the trim leaves it as it is), and the label
`Listing n` when the title is `null`, empty or only white space; it is never
empty. -/
theorem promoted_name (ownerId id : Nat) (l : Listing) (w : WarehouseData)
    (h : routeWarehouseData ownerId id l = .ok w ∨
      (backfillWarehouseData l = .ok w ∧ id = l.id)) :
    (∀ t, l.title = some t → isBlank t = false → w.name = jsTrim t) ∧
    (∀ t, l.title = some t → isBlank t = false → jsTrim t = t → w.name = t) ∧
    (l.title = none → w.name = listingLabel id) ∧
    (∀ t, l.title = some t → isBlank t = true → w.name = listingLabel id) ∧
    w.name ≠ "" := by
  have hname : w.name = promotedName l.title id := by
    rcases h with h | ⟨h, rfl⟩
    · obtain ⟨p, t, -, -, rfl⟩ := (routeWarehouseData_ok_iff ownerId id l w).1 h
      rfl
    · obtain ⟨p, t, -, -, rfl⟩ := (backfillWarehouseData_ok_iff l w).1 h
      rfl
  rw [hname, promotedName_eq]
  refine ⟨?_, ?_, ?_, ?_, ?_⟩
  · intro t ht hb
    simp [ht, hb]
  · intro t ht hb htrim
    simp [ht, hb, htrim]
  · intro ht
    simp [ht]
  · intro t ht hb
    simp [ht, hb]
  · cases ht : l.title with
    | none => exact listingLabel_ne_empty id
    | some t =>
      cases hb : isBlank t with
      | true => simpa [hb] using listingLabel_ne_empty id
      | false => simpa [hb] using jsTrim_ne_empty t hb

/-- C12 at the seeded title `Okhla Ambient Storage` of Listing #7: the name of
the record the route builds is that title. -/
theorem promoted_name_listing7 :
    ∃ w, routeWarehouseData 2 7 listing7 = .ok w ∧ w.name = "Okhla Ambient Storage" := by
  have hbuilt : routeWarehouseData 2 7 listing7 = .ok _ :=
    (routeWarehouseData_ok_iff 2 7 listing7 _).2 ⟨_, _, rfl, rfl, rfl⟩
  refine ⟨_, hbuilt, ?_⟩
  exact (promoted_name 2 7 listing7 _ (Or.inl hbuilt)).2.1 "Okhla Ambient Storage" rfl
    (by decide) (by decide)

/-- C12 as stated fails: the title ` Okhla Hub ` is not blank, and the name of
the record built from it is `Okhla Hub`, which is not the title. -/
theorem promoted_name_is_not_padded_title :
    paddedListing.title = some " Okhla Hub " ∧ isBlank " Okhla Hub " = false ∧
    ∃ w, routeWarehouseData 2 8 paddedListing = .ok w ∧
      backfillWarehouseData paddedListing = .ok w ∧
      w.name = "Okhla Hub" ∧ w.name ≠ " Okhla Hub " := by
  refine ⟨rfl, by decide, _, (routeWarehouseData_ok_iff 2 8 paddedListing _).2
    ⟨_, _, rfl, rfl, rfl⟩, (backfillWarehouseData_ok_iff paddedListing _).2
    ⟨_, _, rfl, rfl, rfl⟩, by decide, by decide⟩

/-- The description a promotion gives: the trimmed description, a blank line
and the marker, or the marker alone when the description is `null` or blank. -/
theorem promotedDescription_eq (description : Option String) (id : Nat) :
    promotedDescription description id =
      match description with
      | none => originTag id
      | some d => if isBlank d then originTag id else jsTrim d ++ "\n\n" ++ originTag id := by
  cases description with
  | none => rfl
  | some d =>
    by_cases hb : isBlank d = true
    · have ht := (jsTrim_eq_empty_iff d).2 hb
      simp [promotedDescription, baseDesc, ht, hb]
    · have hb' : isBlank d = false := by simpa using hb
      have ht := jsTrim_ne_empty d hb'
      simp [promotedDescription, baseDesc, ht, hb']

/-- The promoted description ends with the marker. -/
theorem originTag_suffix_promotedDescription (description : Option String) (id : Nat) :
    (originTag id).data <:+ (promotedDescription description id).data := by
  unfold promotedDescription
  split
  · exact List.suffix_rfl
  · rw [String.data_append]
    exact List.suffix_append _ _

/-- A text that ends with a marker matches the store's search for it. -/
theorem containsInsensitive_of_suffix (haystack needle : String)
    (h : needle.data <:+ haystack.data) : containsInsensitive haystack needle = true := by
  unfold containsInsensitive foldCase
  exact decide_eq_true (List.IsSuffix.map _ h).isInfix

/-- C13, as amended. Route and script: the description of a built record is the
listing's description with the white space at both ends removed, a blank line
and the marker `[origin:listing:n]` when the description is not blank (the
description itself before the blank line when the trim leaves it as it is),
and the marker alone when the description is `null`, empty or only white
space; in every case it ends with the marker, contains it, and matches the
store's search for it. -/
theorem promoted_description (ownerId id : Nat) (l : Listing) (w : WarehouseData)
    (h : routeWarehouseData ownerId id l = .ok w ∨
      (backfillWarehouseData l = .ok w ∧ id = l.id)) :
    (∀ d, l.description = some d → isBlank d = false →
      w.description = jsTrim d ++ "\n\n" ++ originTag id) ∧
    (∀ d, l.description = some d → isBlank d = false → jsTrim d = d →
      w.description = d ++ "\n\n" ++ originTag id) ∧
    (l.description = none → w.description = originTag id) ∧
    (∀ d, l.description = some d → isBlank d = true → w.description = originTag id) ∧
    (originTag id).data <:+ w.description.data ∧
    (originTag id).data <:+: w.description.data ∧
    containsInsensitive w.description (originTag id) = true := by
  have hdesc : w.description = promotedDescription l.description id := by
    rcases h with h | ⟨h, rfl⟩
    · obtain ⟨p, t, -, -, rfl⟩ := (routeWarehouseData_ok_iff ownerId id l w).1 h
      rfl
    · obtain ⟨p, t, -, -, rfl⟩ := (backfillWarehouseData_ok_iff l w).1 h
      rfl
  have hsuffix := originTag_suffix_promotedDescription l.description id
  rw [hdesc]
  refine ⟨?_, ?_, ?_, ?_, hsuffix, hsuffix.isInfix,
    containsInsensitive_of_suffix _ _ hsuffix⟩
  · intro d hd hb
    simp [promotedDescription_eq, hd, hb]
  · intro d hd hb htrim
    simp [promotedDescription_eq, hd, hb, htrim]
  · intro hd
    simp [promotedDescription_eq, hd]
  · intro d hd hb
    simp [promotedDescription_eq, hd, hb]

/-- C13 at Listing #7, whose description is `null`: the description of the
record the route builds is the marker `[origin:listing:7]` alone. -/
theorem promoted_description_listing7 :
    ∃ w, routeWarehouseData 2 7 listing7 = .ok w ∧ w.description = "[origin:listing:7]" := by
  have hbuilt : routeWarehouseData 2 7 listing7 = .ok _ :=
    (routeWarehouseData_ok_iff 2 7 listing7 _).2 ⟨_, _, rfl, rfl, rfl⟩
  refine ⟨_, hbuilt, ?_⟩
  exact (promoted_description 2 7 listing7 _ (Or.inl hbuilt)).2.2.1 rfl

/-- C13 as stated fails: the description ` Clean storage. ` is not blank, and
the description of the record built from it starts with `Clean storage.`, not
with the original text. -/
theorem promoted_description_is_not_padded_description :
    paddedListing.description = some " Clean storage. " ∧
    isBlank " Clean storage. " = false ∧
    ∃ w, routeWarehouseData 2 8 paddedListing = .ok w ∧
      backfillWarehouseData paddedListing = .ok w ∧
      w.description = "Clean storage.\n\n[origin:listing:8]" ∧
      w.description ≠ " Clean storage. " ++ "\n\n" ++ originTag 8 := by
  refine ⟨rfl, by decide, _, (routeWarehouseData_ok_iff 2 8 paddedListing _).2
    ⟨_, _, rfl, rfl, rfl⟩, (backfillWarehouseData_ok_iff paddedListing _).2
    ⟨_, _, rfl, rfl, rfl⟩, by decide, by decide⟩

/-- Where `Number` gives a finite number, or the value is empty or nullish, the
two coercions agree. -/
theorem toNumberOrNull_eq_coerceOrNull (v : JsValue)
    (h : ∀ n, v.toNumber = .ok n → n.isFinite = true) :
    toNumberOrNull v = coerceOrNull v := by
  unfold toNumberOrNull coerceOrNull
  cases hn : v.isNullish <;> cases he : v.isEmptyString <;> simp
  cases hv : v.toNumber with
  | error e => rfl
  | ok n => simp [Except.map, h n hv]

/-- Route and script build the same record from a listing whose two pricing
values coerce to finite numbers (or are empty or nullish), when the route is
called with the listing's own owner and id. -/
theorem backfill_eq_route_of_finite (l : Listing)
    (hr : ∀ n, ((priceOf l).getProp "ratePerSqFtPerMonth").toNumber = .ok n →
      n.isFinite = true)
    (ht : ∀ n, ((priceOf l).getProp "totalSqFt").toNumber = .ok n → n.isFinite = true) :
    backfillWarehouseData l = routeWarehouseData l.ownerId l.id l := by
  simp only [backfillWarehouseData, routeWarehouseData,
    toNumberOrNull_eq_coerceOrNull _ hr, toNumberOrNull_eq_coerceOrNull _ ht]

/-- The agreement of route and script at Listing #7. -/
theorem backfill_eq_route_listing7 :
    backfillWarehouseData listing7 = routeWarehouseData 2 7 listing7 :=
  backfill_eq_route_of_finite listing7
    (fun n hn => by cases Except.ok.inj hn; rfl)
    (fun n hn => by cases Except.ok.inj hn; rfl)

/-- C15 fails at a listing whose `pricing.totalSqFt` is `abc` and whose
`pricing.ratePerSqFtPerMonth` is `n/a`: the route's record carries `NaN` in
`pricePerSqFt`, `totalSpace` and `availableSpace`, the script's record carries
`null` in all three. -/
theorem backfill_differs_from_route_on_non_numeric :
    ∃ w w', routeWarehouseData 2 9 nonNumericListing = .ok w ∧
      backfillWarehouseData nonNumericListing = .ok w' ∧
      w.pricePerSqFt = some .nan ∧ w.totalSpace = some .nan ∧
      w.availableSpace = some .nan ∧
      w'.pricePerSqFt = none ∧ w'.totalSpace = none ∧ w'.availableSpace = none ∧
      w.ownerId = w'.ownerId ∧ w.name = w'.name ∧ w.description = w'.description ∧
      w ≠ w' := by
  refine ⟨_, _, (routeWarehouseData_ok_iff 2 9 nonNumericListing _).2 ⟨_, _, rfl, rfl, rfl⟩,
    (backfillWarehouseData_ok_iff nonNumericListing _).2 ⟨_, _, rfl, rfl, rfl⟩,
    by decide, by decide, by decide, by decide, by decide, by decide, rfl, rfl, rfl, ?_⟩
  intro h
  have := congrArg WarehouseData.totalSpace h
  revert this
  decide

/-! ### Access policy -/

/-- C17. `requireRole` hands the request on exactly when it has a user one of
whose roles is among the permitted roles; without a user it answers 401
Unauthorized, with a user none of whose roles is permitted it answers 403
Forbidden; and one role given as a string behaves as the one-element array. -/
theorem requireRole_spec (roles : RolesArg) (user : Option User) (role : String) :
    (requireRole roles user = .next ↔
      ∃ u, user = some u ∧ ∃ r, r ∈ u.roles ∧ r ∈ roles.allowed) ∧
    (user = none → requireRole roles user = .reject 401 "Unauthorized") ∧
    (∀ u, user = some u → (∀ r, r ∈ u.roles → r ∉ roles.allowed) →
      requireRole roles user = .reject 403 "Forbidden") ∧
    requireRole (.one role) user = requireRole (.many [role]) user := by
  refine ⟨?_, ?_, ?_, rfl⟩
  · cases user with
    | none => simp [requireRole]
    | some u =>
      by_cases h : u.roles.any (fun r => roles.allowed.contains r) = true
      · simp only [requireRole, h, if_true, true_iff]
        obtain ⟨r, hr, hc⟩ := List.any_eq_true.1 h
        exact ⟨u, rfl, r, hr, by simpa using hc⟩
      · simp only [requireRole, h]
        constructor
        · intro hne
          cases hne
        · rintro ⟨u', hu, r, hr, ha⟩
          cases hu
          exact absurd (List.any_eq_true.2 ⟨r, hr, by simpa using ha⟩) h
  · rintro rfl
    rfl
  · rintro u rfl hno
    have h : u.roles.any (fun r => roles.allowed.contains r) = false := by
      rw [List.any_eq_false]
      intro r hr
      simpa using hno r hr
    simp only [requireRole, h]
    rfl

/-- The label of a user that carries a roles list depends only on which of
the three role names the list contains. -/
theorem toLegacyRole_roles (rs : List String) (role : Option String) :
    toLegacyRole ⟨some rs, role⟩ =
      if "ADMIN" ∈ rs then "admin"
      else if "WAREHOUSE_OWNER" ∈ rs then "owner"
      else if "MERCHANT" ∈ rs then "merchant"
      else "user" := by
  simp [toLegacyRole, UserLike.rolesInclude]

/-- The admin router's label of a user that carries a roles list. -/
theorem computePrimaryRole_roles (toUpperCase : String → String) (rs : List String)
    (role : Option String) :
    computePrimaryRole toUpperCase (some ⟨some rs, role⟩) =
      if "ADMIN" ∈ rs then "admin"
      else if "WAREHOUSE_OWNER" ∈ rs then "owner"
      else if "MERCHANT" ∈ rs then "merchant"
      else "user" := by
  simp [computePrimaryRole]

/-- C18. For a user with the roles list `rs`, `toLegacyRole` and
`computePrimaryRole` both give `admin` if the list contains ADMIN, else `owner`
if it contains WAREHOUSE_OWNER, else `merchant` if it contains MERCHANT, else
`user`; so they agree, and a list `rs'` with the same members (in any order,
with any multiplicity) gives the same label. -/
theorem primaryRole_spec (toUpperCase : String → String) (rs rs' : List String)
    (role role' : Option String) :
    (toLegacyRole ⟨some rs, role⟩ =
      if "ADMIN" ∈ rs then "admin"
      else if "WAREHOUSE_OWNER" ∈ rs then "owner"
      else if "MERCHANT" ∈ rs then "merchant"
      else "user") ∧
    computePrimaryRole toUpperCase (some ⟨some rs, role⟩) = toLegacyRole ⟨some rs, role⟩ ∧
    ((∀ r, r ∈ rs ↔ r ∈ rs') →
      toLegacyRole ⟨some rs, role⟩ = toLegacyRole ⟨some rs', role'⟩ ∧
      computePrimaryRole toUpperCase (some ⟨some rs, role⟩) =
        computePrimaryRole toUpperCase (some ⟨some rs', role'⟩)) := by
  refine ⟨toLegacyRole_roles rs role, ?_, ?_⟩
  · rw [computePrimaryRole_roles, toLegacyRole_roles]
  · intro h
    rw [computePrimaryRole_roles, computePrimaryRole_roles, toLegacyRole_roles,
      toLegacyRole_roles]
    simp only [h]
    trivial

/-- C18 at the seeded user with roles WAREHOUSE_OWNER and MERCHANT: the label
is `owner`, also with the roles in the other order and MERCHANT twice. -/
theorem primaryRole_owner_merchant :
    toLegacyRole ⟨some ["WAREHOUSE_OWNER", "MERCHANT"], none⟩ = "owner" ∧
    toLegacyRole ⟨some ["MERCHANT", "WAREHOUSE_OWNER", "MERCHANT"], none⟩ = "owner" ∧
    computePrimaryRole id (some ⟨some ["MERCHANT", "WAREHOUSE_OWNER", "MERCHANT"], none⟩) =
      "owner" := by
  have h := primaryRole_spec id ["WAREHOUSE_OWNER", "MERCHANT"]
    ["MERCHANT", "WAREHOUSE_OWNER", "MERCHANT"] none none
  have hsame := h.2.2 (by intro r; simp [or_comm])
  refine ⟨by decide, hsame.1 ▸ by decide, ?_⟩
  rw [← hsame.2, h.2.1]
  decide

/-- C17 at a MERCHANT request to a route that permits MERCHANT: it passes. -/
theorem requireRole_merchant_passes :
    requireRole (.one "MERCHANT") (some ⟨1, ["MERCHANT"]⟩) = .next :=
  (requireRole_spec (.one "MERCHANT") (some ⟨1, ["MERCHANT"]⟩) "MERCHANT").1.2
    ⟨_, rfl, "MERCHANT", by decide, by decide⟩

/-! ### The listings router -/

/-- A status the validity test lets through is a value of `ListingStatus`. -/
theorem validStatus_mem (sch : Schema) (v : JsValue) (st : String)
    (h : validStatus sch v = some st) : st ∈ listingStatusValues sch := by
  unfold validStatus at h
  split at h
  · split at h
    · rename_i hc
      cases h
      exact hc.2
    · cases h
  · cases h

/-- The status POST /listings gives a new listing: the request's status when it
is a value of `ListingStatus`, else DRAFT. -/
theorem safeStatus_eq (sch : Schema) (st : String) :
    (st ∈ listingStatusValues sch → st ≠ "" → safeStatus sch (.str st) = st) ∧
    (st ∉ listingStatusValues sch → safeStatus sch (.str st) = "DRAFT") ∧
    safeStatus sch .undefined = "DRAFT" := by
  refine ⟨?_, ?_, rfl⟩
  · intro h h0
    simp [safeStatus, validStatus, h, h0]
  · intro h
    simp [safeStatus, validStatus, h]

/-- What POST /listings creates: the listing it answers with is the one new
row, owned by the requester, with the status `safeStatus` of the body's
status. -/
theorem postListing_created (sch : Schema) (s : Store) (auth : Option Nat) (now : String)
    (body : JsValue) (st : Nat) (l : Listing) (s' : Store)
    (h : postListing sch s auth now body = (.listing st l, s')) :
    st = 201 ∧ s'.listings = s.listings ++ [l] ∧ auth = some l.ownerId ∧
    l.status = safeStatus sch ((body.or (.obj [])).getProp "status") ∧
    s'.warehouses = s.warehouses := by
  unfold postListing at h
  split at h
  · cases h
  · rename_i ownerId hauth
    have ha : auth = some ownerId := by
      unfold listingsUser at hauth
      split at hauth
      · cases hauth
      · split at hauth
        · cases hauth
        · cases hauth
          rfl
    simp only at h
    split at h
    · cases h
      exact ⟨rfl, rfl, ha, rfl, rfl⟩
    · cases h

/-- C19 fails at the body `{ status: 'PUBLISHED' }`: POST /listings answers 201
with a listing whose status is PUBLISHED, stores it, and creates no
warehouse. -/
theorem postListing_creates_published :
    ∃ l s', postListing exampleSchema emptyStore (some 2) "1/1/2025"
        (.obj [("status", .str "PUBLISHED")]) = (.listing 201 l, s') ∧
      s'.listings = [l] ∧ l.status = "PUBLISHED" ∧ l.status ≠ "DRAFT" ∧
      s'.warehouses = [] :=
  ⟨_, _, rfl, rfl, rfl, by decide, rfl⟩

/-- An update of one row keeps its id and owner and sets its status, if at
all, to a value of `ListingStatus`. -/
theorem applyPatch_frame (sch : Schema) (body : JsValue) (l l' : Listing)
    (h : applyPatch l (listingPatch sch body) = some l') : ListingFrame sch l l' := by
  unfold applyPatch at h
  split at h
  · cases h
  · cases h
    refine ⟨rfl, rfl, ?_⟩
    cases hs : (listingPatch sch body).status with
    | none => exact Or.inl (by simp [hs])
    | some st =>
      refine Or.inr ?_
      simp only [hs, Option.getD_some]
      exact validStatus_mem sch _ st hs

/-- Every row is within the frame of itself. -/
theorem ListingFrame.refl (sch : Schema) (l : Listing) : ListingFrame sch l l :=
  ⟨rfl, rfl, Or.inl rfl⟩

/-- The update of the listing table changes each row within the frame, and
leaves a row with another id as it is. -/
theorem updateListings_frame (sch : Schema) (body : JsValue) (id : Nat) (ls : List Listing) :
    List.Forall₂ (fun l l' => ListingFrame sch l l' ∧ (l.id ≠ id → l' = l)) ls
      (updateListings ls id (listingPatch sch body)) := by
  induction ls with
  | nil => exact List.Forall₂.nil
  | cons l rest ih =>
    refine List.Forall₂.cons ?_ ih
    show ListingFrame sch l (if l.id = id then (applyPatch l (listingPatch sch body)).getD l
      else l) ∧ (l.id ≠ id → (if l.id = id then (applyPatch l (listingPatch sch body)).getD l
      else l) = l)
    by_cases hid : l.id = id
    · rw [if_pos hid]
      cases hp : applyPatch l (listingPatch sch body) with
      | none => exact ⟨ListingFrame.refl sch l, fun _ => rfl⟩
      | some l' =>
        exact ⟨applyPatch_frame sch body l l' hp, fun hne => absurd hid hne⟩
    · rw [if_neg hid]
      exact ⟨ListingFrame.refl sch l, fun _ => rfl⟩

/-- The listing table after PUT /listings/:id is the table before it, or that
table with the rows of one id updated by the patch of the body. -/
theorem putListing_listings (sch : Schema) (s : Store) (auth : Option Nat) (idParam : JsNum)
    (body : JsValue) :
    (putListing sch s auth idParam body).2 = s ∨
    ∃ existing, findListing s idParam (auth.getD 0) = some existing ∧
      (putListing sch s auth idParam body).2.listings =
        updateListings s.listings existing.id (listingPatch sch (body.or (.obj []))) := by
  unfold putListing
  split
  · exact Or.inl rfl
  · rename_i ownerId hauth
    have ha : auth.getD 0 = ownerId := by
      unfold listingsUser at hauth
      split at hauth
      · cases hauth
      · split at hauth
        · cases hauth
        · cases hauth
          rfl
    split
    · exact Or.inl rfl
    · split
      · exact Or.inl rfl
      · rename_i existing hex
        rw [← ha] at hex
        simp only
        split
        · exact Or.inl rfl
        · refine Or.inr ⟨existing, hex, ?_⟩
          split
          · split
            · rfl
            · split <;> rfl
          · rfl

/-- A row the lookup of PUT /listings/:id finds has the requested id and is
owned by the requester. -/
theorem findListing_some (s : Store) (idParam : JsNum) (ownerId : Nat) (l : Listing)
    (h : findListing s idParam ownerId = some l) :
    l ∈ s.listings ∧ JsNum.fin (l.id : ℚ) = idParam ∧ l.ownerId = ownerId := by
  unfold findListing at h
  have hm := List.mem_of_find?_eq_some h
  have hp := List.find?_some h
  simp only [Bool.and_eq_true, decide_eq_true_eq, beq_iff_eq] at hp
  exact ⟨hm, hp.1, hp.2⟩

/-- The lookup finds nothing when the requester owns no row with the requested
id. -/
theorem findListing_none (s : Store) (idParam : JsNum) (ownerId : Nat)
    (h : ∀ l, l ∈ s.listings → JsNum.fin (l.id : ℚ) = idParam → l.ownerId ≠ ownerId) :
    findListing s idParam ownerId = none := by
  cases hf : findListing s idParam ownerId with
  | none => rfl
  | some l =>
    obtain ⟨hm, hid, ho⟩ := findListing_some s idParam ownerId l hf
    exact absurd ho (h l hm hid)

/-- C20. For every store and every request to PUT /listings/:id, whatever the
body carries: each listing row keeps its id and its ownerId, its status
changes only to a value of `ListingStatus`, and a row whose id is not the
requested one is not changed at all; and a request with a finite id by a user
who owns no listing with that id is answered 404 `Listing not found` and
leaves the whole store as it was. -/
theorem putListing_keeps_owner (sch : Schema) (s : Store) (auth : Option Nat)
    (idParam : JsNum) (body : JsValue) (uid : Nat) :
    List.Forall₂
      (fun l l' => ListingFrame sch l l' ∧ (JsNum.fin (l.id : ℚ) ≠ idParam → l' = l))
      s.listings (putListing sch s auth idParam body).2.listings ∧
    (listingsUser auth = some uid → idParam.isFinite = true →
      (∀ l, l ∈ s.listings → JsNum.fin (l.id : ℚ) = idParam → l.ownerId ≠ uid) →
      putListing sch s auth idParam body = (.error 404 "Listing not found", s)) := by
  constructor
  · rcases putListing_listings sch s auth idParam body with h | ⟨existing, hex, h⟩
    · rw [h]
      exact List.forall₂_same.2 (fun l _ => ⟨ListingFrame.refl sch l, fun _ => rfl⟩)
    · rw [h]
      have hid := (findListing_some s idParam _ existing hex).2.1
      refine (updateListings_frame sch _ existing.id s.listings).imp ?_
      rintro l l' ⟨hf, hsame⟩
      refine ⟨hf, fun hne => hsame ?_⟩
      intro hl
      apply hne
      rw [hl, hid]
  · intro hauth hfin hown
    unfold putListing
    simp [hauth, hfin, findListing_none s idParam uid hown]

/-- C20 at Listing #7 of user 2. A request by user 3 whose body carries
`ownerId: 3` and `status: 'PUBLISHED'` is answered 404 and changes nothing; a
request by user 2 whose body carries `ownerId: 3`, `id: 99` and a title leaves
one row, with id 7 and owner 2. -/
theorem putListing_keeps_owner_listing7 :
    putListing exampleSchema storeWithListing7 (some 3) (.fin 7)
        (.obj [("ownerId", .num (.fin 3)), ("status", .str "PUBLISHED")]) =
      (.error 404 "Listing not found", storeWithListing7) ∧
    (putListing exampleSchema storeWithListing7 (some 2) (.fin 7)
        (.obj [("ownerId", .num (.fin 3)), ("id", .num (.fin 99)),
          ("title", .str "Okhla Hub")])).2.listings.map
      (fun l => (l.id, l.ownerId, l.title)) = [(7, 2, some "Okhla Hub")] := by
  refine ⟨(putListing_keeps_owner exampleSchema storeWithListing7 (some 3) (.fin 7)
    _ 3).2 rfl rfl ?_, rfl⟩
  intro l hl _
  have : l = listing7 := by simpa [storeWithListing7] using hl
  rw [this]
  decide

/-! ### The backfill script -/

/-- A dry run leaves the store as it is. -/
theorem backfillLoop_dry_store (sch : Schema) (ls : List Listing) (s : Store)
    (created skipped : Nat) : (backfillLoop sch true ls s created skipped).1 = s := by
  induction ls generalizing created skipped with
  | nil => rfl
  | cons l rest ih =>
    unfold backfillLoop
    split
    · exact ih _ _
    · split
      · rfl
      · simp only [if_true]
        exact ih _ _

/-- The lookup in a store with one more warehouse finds a row when it found
one before or the new record matches. -/
theorem findPromoted_createWarehouse (sch : Schema) (s : Store) (d : WarehouseData)
    (ownerId : Nat) (tag : String) :
    (findPromoted (createWarehouse sch s d) ownerId tag).isSome =
      ((findPromoted s ownerId tag).isSome || matchesLookup d ownerId tag) := by
  unfold findPromoted createWarehouse
  simp only [List.find?_append, Option.isSome_or, List.find?_singleton]
  cases matchesLookup d ownerId tag <;> simp

/-- Dry run and real run report the same, from stores in which the lookups of
the listings still to process have the same outcome, when no record built for
one of those listings matches the lookup of a later one. -/
theorem backfillLoop_counts (sch : Schema) (ls : List Listing) (s s' : Store)
    (created skipped : Nat)
    (hsame : ∀ l, l ∈ ls →
      (findPromoted s' l.ownerId (originTag l.id)).isSome =
        (findPromoted s l.ownerId (originTag l.id)).isSome)
    (hcross : NoCrossMatch ls) :
    (backfillLoop sch true ls s created skipped).2 =
      (backfillLoop sch false ls s' created skipped).2 := by
  induction ls generalizing s' created skipped with
  | nil => rfl
  | cons l rest ih =>
    have hl := hsame l (List.mem_cons_self l rest)
    have hrest : ∀ l', l' ∈ rest →
        (findPromoted s' l'.ownerId (originTag l'.id)).isSome =
          (findPromoted s l'.ownerId (originTag l'.id)).isSome :=
      fun l' hl' => hsame l' (List.mem_cons_of_mem l hl')
    obtain ⟨hhead, htail⟩ := List.pairwise_cons.1 hcross
    unfold backfillLoop
    cases hf : findPromoted s l.ownerId (originTag l.id) with
    | some r =>
      rw [hf] at hl
      cases hf' : findPromoted s' l.ownerId (originTag l.id) with
      | none => rw [hf'] at hl; cases hl
      | some r' => exact ih s' _ _ hrest htail
    | none =>
      rw [hf] at hl
      cases hf' : findPromoted s' l.ownerId (originTag l.id) with
      | some r' => rw [hf'] at hl; cases hl
      | none =>
        cases hd : backfillWarehouseData l with
        | error e => rfl
        | ok d =>
          simp only [if_true, Bool.false_eq_true, if_false]
          refine ih (createWarehouse sch s' d) _ _ ?_ htail
          intro l' hl'
          rw [findPromoted_createWarehouse, hrest l' hl', hhead l' hl' d hd, Bool.or_false]

/-- C16, as amended. A dry run of the backfill leaves the store as it is, so it
creates no Warehouse; and it reports the counts of a non-dry run over the same
store (or ends with the same error) when no record the run builds for one
published listing matches the marker lookup, same owner and description
containing the marker, of a published listing processed after it. -/
theorem dry_run_spec (sch : Schema) (orderBy : List Listing → List Listing) (s : Store) :
    (run sch orderBy true s).1 = s ∧
    (run sch orderBy true s).1.warehouses = s.warehouses ∧
    (NoCrossMatch (publishedListings orderBy s) →
      (run sch orderBy true s).2 = (run sch orderBy false s).2) := by
  have h := backfillLoop_dry_store sch (publishedListings orderBy s) s 0 0
  refine ⟨h, ?_, ?_⟩
  · unfold run
    rw [h]
  · intro hcross
    exact backfillLoop_counts sch _ s s 0 0 (fun _ _ => rfl) hcross

/-- C16 at the store with two published listings and no warehouse: the dry run
changes nothing and reports 2 created and 0 skipped, as the real run does. -/
theorem dry_run_two_published :
    (run exampleSchema id true storeWithTwoPublished).1.warehouses = [] ∧
    (run exampleSchema id true storeWithTwoPublished).2 = .ok (2, 0) ∧
    (run exampleSchema id false storeWithTwoPublished).2 = .ok (2, 0) := by
  have h := dry_run_spec exampleSchema id storeWithTwoPublished
  have hcross : NoCrossMatch (publishedListings id storeWithTwoPublished) := by
    have hls : publishedListings id storeWithTwoPublished = [listing7, paddedListing] := rfl
    rw [hls]
    refine List.pairwise_cons.2 ⟨?_, List.pairwise_cons.2 ⟨?_, List.Pairwise.nil⟩⟩
    · intro l' hl' d hd
      have hl : l' = paddedListing := List.mem_singleton.1 hl'
      subst hl
      cases Except.ok.inj hd
      decide
    · intro l' hl'
      cases hl'
  refine ⟨h.2.1, ?_, ?_⟩
  · rfl
  · rw [← h.2.2 hcross]
    rfl

/-- C16 as stated fails at the store with the quoting listing and Listing #7:
the dry run reports 2 created and 0 skipped, the real run creates one
warehouse, whose description quotes the marker of Listing #7, and then skips
Listing #7: 1 created and 1 skipped. -/
theorem dry_run_counts_differ :
    (run exampleSchema id true storeWithQuote).2 = .ok (2, 0) ∧
    (run exampleSchema id false storeWithQuote).2 = .ok (1, 1) ∧
    (run exampleSchema id true storeWithQuote).1.warehouses.length = 0 ∧
    (run exampleSchema id false storeWithQuote).1.warehouses.length = 1 :=
  ⟨rfl, rfl, rfl, rfl⟩

/-! ### Promoted warehouses and bookings -/

/-- A record a promotion builds is not approved. -/
theorem promoted_isApproved_false (ownerId id : Nat) (l : Listing) (d : WarehouseData)
    (h : routeWarehouseData ownerId id l = .ok d ∨ backfillWarehouseData l = .ok d) :
    d.isApproved = false := by
  rcases h with h | h
  · obtain ⟨p, t, -, -, rfl⟩ := (routeWarehouseData_ok_iff ownerId id l d).1 h
    rfl
  · obtain ⟨p, t, -, -, rfl⟩ := (backfillWarehouseData_ok_iff l d).1 h
    rfl

/-- A store with the same warehouse table and counter has the same fresh ids
and the same unapproved rows. -/
theorem inv_of_same_warehouses (w : Nat) (s s' : Store)
    (hw : s'.warehouses = s.warehouses) (hn : s'.nextWarehouseId = s.nextWarehouseId)
    (h : FreshIds s ∧ Unapproved w s) : FreshIds s' ∧ Unapproved w s' := by
  unfold FreshIds Unapproved at *
  rw [hw, hn]
  exact h

/-- The creation of a warehouse from a record that is not approved keeps the
ids fresh and the rows of an id unapproved. -/
theorem inv_createWarehouse (sch : Schema) (w : Nat) (s : Store) (d : WarehouseData)
    (hd : d.isApproved = false) (h : FreshIds s ∧ Unapproved w s) :
    FreshIds (createWarehouse sch s d) ∧ Unapproved w (createWarehouse sch s d) := by
  obtain ⟨hf, hu⟩ := h
  constructor
  · intro r hr
    simp only [createWarehouse, List.mem_append, List.mem_singleton] at hr ⊢
    rcases hr with hr | rfl
    · exact Nat.lt_succ_of_lt (hf r hr)
    · exact Nat.lt_succ_self _
  · intro r hr hid
    simp only [createWarehouse, List.mem_append, List.mem_singleton] at hr
    rcases hr with hr | rfl
    · exact hu r hr hid
    · exact hd

/-- A change of the listing table alone keeps the ids fresh and the rows of an
id unapproved. -/
theorem inv_with_listings (w : Nat) (s : Store) (ls : List Listing)
    (h : FreshIds s ∧ Unapproved w s) :
    FreshIds { s with listings := ls } ∧ Unapproved w { s with listings := ls } :=
  inv_of_same_warehouses w s _ rfl rfl h

/-- PUT /listings/:id keeps the ids fresh and the rows of an id unapproved. -/
theorem inv_putListing (sch : Schema) (w : Nat) (s : Store) (auth : Option Nat)
    (idParam : JsNum) (body : JsValue) (h : FreshIds s ∧ Unapproved w s) :
    FreshIds (putListing sch s auth idParam body).2 ∧
      Unapproved w (putListing sch s auth idParam body).2 := by
  unfold putListing
  split
  · exact h
  · split
    · exact h
    · split
      · exact h
      · dsimp only
        split
        · exact h
        · split
          · split
            · exact inv_with_listings w s _ h
            · split
              · exact inv_with_listings w s _ h
              · rename_i d hd
                exact inv_createWarehouse sch w _ d
                  (promoted_isApproved_false _ _ _ d (Or.inl hd)) (inv_with_listings w s _ h)
          · exact inv_with_listings w s _ h

/-- A run of the backfill keeps the ids fresh and the rows of an id
unapproved. -/
theorem inv_backfillLoop (sch : Schema) (dry : Bool) (w : Nat) (ls : List Listing) (s : Store)
    (created skipped : Nat) (h : FreshIds s ∧ Unapproved w s) :
    FreshIds (backfillLoop sch dry ls s created skipped).1 ∧
      Unapproved w (backfillLoop sch dry ls s created skipped).1 := by
  induction ls generalizing s created skipped with
  | nil => exact h
  | cons l rest ih =>
    unfold backfillLoop
    split
    · exact ih s _ _ h
    · split
      · exact h
      · rename_i d hd
        split
        · exact ih s _ _ h
        · exact ih _ _ _ (inv_createWarehouse sch w s d
            (promoted_isApproved_false 0 0 l d (Or.inr hd)) h)

/-- POST /bookings changes no warehouse. -/
theorem postBooking_warehouses (s : Store) (user : Option User) (body : JsValue) :
    (postBooking s user body).2.warehouses = s.warehouses ∧
      (postBooking s user body).2.nextWarehouseId = s.nextWarehouseId := by
  unfold postBooking
  repeat' (first | exact ⟨rfl, rfl⟩ | split)

/-- POST /book changes no warehouse. -/
theorem postBook_warehouses (s : Store) (token : BookToken) (body : JsValue) :
    (postBook s token body).2.warehouses = s.warehouses ∧
      (postBook s token body).2.nextWarehouseId = s.nextWarehouseId := by
  unfold postBook
  repeat' (first | exact ⟨rfl, rfl⟩ | split | dsimp only)

/-- PUT /bookings/:id changes no warehouse. -/
theorem putBooking_warehouses (s : Store) (user : Option User) (idParam : JsNum)
    (toStatus : String) :
    (putBooking s user idParam toStatus).2.warehouses = s.warehouses ∧
      (putBooking s user idParam toStatus).2.nextWarehouseId = s.nextWarehouseId := by
  unfold putBooking
  repeat' (first | exact ⟨rfl, rfl⟩ | split | dsimp only)

/-- POST /bookings/message changes no warehouse. -/
theorem postMessage_warehouses (s : Store) (user : Option User) (bookingId : JsNum)
    (message : String) :
    (postMessage s user bookingId message).2.warehouses = s.warehouses ∧
      (postMessage s user bookingId message).2.nextWarehouseId = s.nextWarehouseId := by
  unfold postMessage
  repeat' (first | exact ⟨rfl, rfl⟩ | split)

/-- POST /listings changes no warehouse. -/
theorem postListing_warehouses (sch : Schema) (s : Store) (auth : Option Nat) (now : String)
    (body : JsValue) :
    (postListing sch s auth now body).2.warehouses = s.warehouses ∧
      (postListing sch s auth now body).2.nextWarehouseId = s.nextWarehouseId := by
  unfold postListing
  repeat' (first | exact ⟨rfl, rfl⟩ | split | dsimp only)

/-- A row the lookup by id finds is in the table and has the id. -/
theorem findWarehouse_some (s : Store) (id : JsNum) (wh : WarehouseRow)
    (h : findWarehouse s id = some wh) : wh ∈ s.warehouses ∧ JsNum.fin (wh.id : ℚ) = id := by
  unfold findWarehouse at h
  have hm := List.mem_of_find?_eq_some h
  have hp := List.find?_some h
  simp only [decide_eq_true_eq] at hp
  exact ⟨hm, hp⟩

/-- The deletion of a warehouse row keeps the ids fresh and the rows of an id
unapproved. -/
theorem inv_deleteWarehouseRow (w : Nat) (s : Store) (idParam : JsNum)
    (h : FreshIds s ∧ Unapproved w s) :
    FreshIds (deleteWarehouseRow s idParam).2 ∧ Unapproved w (deleteWarehouseRow s idParam).2 := by
  unfold deleteWarehouseRow
  split
  · exact h
  · obtain ⟨hf, hu⟩ := h
    constructor
    · intro r hr
      exact hf r (List.mem_filter.1 hr).1
    · intro r hr hid
      exact hu r (List.mem_filter.1 hr).1 hid

/-- A request to the approve route that is not an approval of the warehouse
`w` keeps the ids fresh and the rows of `w` unapproved. -/
theorem inv_adminApprove (w : Nat) (s : Store) (dbRoles : Option (List String))
    (idParam : JsNum) (body : JsValue)
    (hno : (Op.adminApprove dbRoles idParam body).approves w = false)
    (h : FreshIds s ∧ Unapproved w s) :
    FreshIds (adminApprove s dbRoles idParam body).2 ∧
      Unapproved w (adminApprove s dbRoles idParam body).2 := by
  unfold adminApprove
  split
  · exact h
  · rename_i hgate
    split
    · exact h
    · split
      · exact h
      · rename_i wh hwh
        obtain ⟨hmem, hid⟩ := findWarehouse_some s idParam wh hwh
        obtain ⟨hf, hu⟩ := h
        constructor
        · intro r hr
          simp only [List.mem_map] at hr
          obtain ⟨r0, hr0, rfl⟩ := hr
          by_cases hc : r0.id = wh.id
          · rw [if_pos hc]
            exact hf wh hmem
          · rw [if_neg hc]
            exact hf r0 hr0
        · intro r hr hrw
          simp only [List.mem_map] at hr
          obtain ⟨r0, hr0, rfl⟩ := hr
          by_cases hc : r0.id = wh.id
          · rw [if_pos hc] at hrw ⊢
            have hww : wh.id = w := hrw
            have hidw : idParam = JsNum.fin (w : ℚ) := by rw [← hid, hww]
            simpa [Op.approves, hgate, hidw] using hno
          · rw [if_neg hc] at hrw ⊢
            exact hu r0 hr0 hrw

/-- An operation that is not an approval of the warehouse `w` keeps the ids
fresh and the rows of `w` unapproved. -/
theorem inv_step (sch : Schema) (w : Nat) (s : Store) (op : Op)
    (hno : op.approves w = false) (h : FreshIds s ∧ Unapproved w s) :
    FreshIds (step sch s op) ∧ Unapproved w (step sch s op) := by
  cases op with
  | postListing auth now body =>
    exact inv_of_same_warehouses w s _ (postListing_warehouses sch s auth now body).1
      (postListing_warehouses sch s auth now body).2 h
  | putListing auth idParam body => exact inv_putListing sch w s auth idParam body h
  | backfill orderBy dry => exact inv_backfillLoop sch dry w _ s 0 0 h
  | postBooking user body =>
    exact inv_of_same_warehouses w s _ (postBooking_warehouses s user body).1
      (postBooking_warehouses s user body).2 h
  | postBook token body =>
    exact inv_of_same_warehouses w s _ (postBook_warehouses s token body).1
      (postBook_warehouses s token body).2 h
  | putBooking user idParam toStatus =>
    exact inv_of_same_warehouses w s _ (putBooking_warehouses s user idParam toStatus).1
      (putBooking_warehouses s user idParam toStatus).2 h
  | postMessage user bookingId message =>
    exact inv_of_same_warehouses w s _ (postMessage_warehouses s user bookingId message).1
      (postMessage_warehouses s user bookingId message).2 h
  | adminApprove dbRoles idParam body => exact inv_adminApprove w s dbRoles idParam body hno h
  | adminDeleteWarehouse dbRoles idParam =>
    show FreshIds (adminDeleteWarehouse s dbRoles idParam).2 ∧
      Unapproved w (adminDeleteWarehouse s dbRoles idParam).2
    unfold adminDeleteWarehouse
    split
    · exact h
    · split
      · exact h
      · exact inv_deleteWarehouseRow w s idParam h
  | deleteWarehouse idParam =>
    show FreshIds (deleteWarehouse s idParam).2 ∧ Unapproved w (deleteWarehouse s idParam).2
    unfold deleteWarehouse
    split
    · exact h
    · exact inv_deleteWarehouseRow w s idParam h

/-- Operations none of which is an approval of the warehouse `w` keep the ids
fresh and the rows of `w` unapproved. -/
theorem inv_steps (sch : Schema) (w : Nat) (ops : List Op) (s : Store)
    (hno : ∀ op, op ∈ ops → op.approves w = false) (h : FreshIds s ∧ Unapproved w s) :
    FreshIds (steps sch s ops) ∧ Unapproved w (steps sch s ops) := by
  induction ops generalizing s with
  | nil => exact h
  | cons op rest ih =>
    exact ih (step sch s op) (fun o ho => hno o (List.mem_cons_of_mem op ho))
      (inv_step sch w s op (hno op (List.mem_cons_self op rest)) h)

/-- A natural number is determined by the JavaScript number it is. -/
theorem fin_natCast_inj (a b : Nat) (h : JsNum.fin (a : ℚ) = JsNum.fin (b : ℚ)) : a = b := by
  have hq : (a : ℚ) = (b : ℚ) := JsNum.fin.inj h
  exact_mod_cast hq

/-- POST /bookings for a warehouse id none of whose rows is approved changes
nothing, and answers a MERCHANT with 400 `Warehouse not bookable`. -/
theorem postBooking_unapproved (s : Store) (w : Nat) (user : Option User) (body : JsValue)
    (hu : Unapproved w s)
    (hbody : (body.getProp "warehouseId").toNumber = .ok (.fin (w : ℚ))) :
    (postBooking s user body).2 = s ∧
    (∀ u, user = some u → "MERCHANT" ∈ u.roles →
      (postBooking s user body).1 = .error 400 "Warehouse not bookable") := by
  have hkey : ∀ wh, findWarehouse s (.fin (w : ℚ)) = some wh → notBookable (some wh) = true := by
    intro wh hwh
    obtain ⟨hmem, hid⟩ := findWarehouse_some s _ wh hwh
    have hap := hu wh hmem (fin_natCast_inj _ _ hid)
    simp [notBookable, hap]
  constructor
  · unfold postBooking
    split
    · rfl
    · split
      · rfl
      · rw [hbody]
        dsimp only
        split
        · rfl
        · rename_i wh hwh
          rw [if_pos (hkey wh hwh)]
  · rintro u rfl hm
    have hreq : requireRole (.one "MERCHANT") (some u) = .next := by
      have : u.roles.any (fun r => ["MERCHANT"].contains r) = true :=
        List.any_eq_true.2 ⟨"MERCHANT", hm, by decide⟩
      simp only [requireRole, RolesArg.allowed, this, if_true]
    unfold postBooking
    simp only [hreq, hbody]
    split
    · rfl
    · rename_i wh hwh
      rw [if_pos (hkey wh hwh)]

/-- C14. A record built by a promotion, route or script, has
`isApproved = false`. Hence, from a store whose warehouse ids are below the
counter and for an id `w` not yet given out (so a warehouse with that id is
created later, and promotions are the only creations), after operations none
of which is an approval of `w` by an admin: no row with id `w` is approved, and
a POST /bookings request naming `w` changes nothing and answers a MERCHANT
with 400 `Warehouse not bookable`. -/
theorem promoted_warehouse_not_bookable (sch : Schema) (s : Store) (ops : List Op) (w : Nat)
    (user : Option User) (body : JsValue)
    (hfresh : FreshIds s) (hnew : s.nextWarehouseId ≤ w)
    (hops : ∀ op, op ∈ ops → op.approves w = false)
    (hbody : (body.getProp "warehouseId").toNumber = .ok (.fin (w : ℚ))) :
    (∀ ownerId id l d,
      routeWarehouseData ownerId id l = .ok d ∨ backfillWarehouseData l = .ok d →
      d.isApproved = false) ∧
    Unapproved w (steps sch s ops) ∧
    (postBooking (steps sch s ops) user body).2 = steps sch s ops ∧
    (∀ u, user = some u → "MERCHANT" ∈ u.roles →
      (postBooking (steps sch s ops) user body).1 = .error 400 "Warehouse not bookable") := by
  have h0 : Unapproved w s := by
    intro r hr hid
    have := hfresh r hr
    omega
  have hinv := inv_steps sch w ops s hops ⟨hfresh, h0⟩
  have hpost := postBooking_unapproved (steps sch s ops) w user body hinv.2 hbody
  exact ⟨promoted_isApproved_false, hinv.2, hpost.1, hpost.2⟩

/-- C14 at the draft Listing #7: its owner publishes it, which creates
warehouse 1 with the marker of Listing #7 and `isApproved = false`; an admin
then sends `isApproved: false` to the approve route; a MERCHANT who books
warehouse 1 is answered 400 `Warehouse not bookable`. -/
theorem promoted_listing7_not_bookable :
    (steps exampleSchema storeWithDraft7
      [.putListing (some 2) (.fin 7) (.obj [("status", .str "PUBLISHED")]),
        .adminApprove (some ["ADMIN"]) (.fin 1) (.obj [("isApproved", .bool false)])]).warehouses.map
      (fun r => (r.id, r.data.description, r.data.isApproved, r.status)) =
      [(1, "[origin:listing:7]", false, some "PUBLISHED")] ∧
    (postBooking
      (steps exampleSchema storeWithDraft7
        [.putListing (some 2) (.fin 7) (.obj [("status", .str "PUBLISHED")]),
          .adminApprove (some ["ADMIN"]) (.fin 1) (.obj [("isApproved", .bool false)])])
      (some ⟨5, ["MERCHANT"]⟩) (.obj [("warehouseId", .num (.fin 1))])).1 =
      .error 400 "Warehouse not bookable" := by
  refine ⟨rfl, ?_⟩
  refine (promoted_warehouse_not_bookable exampleSchema storeWithDraft7 _ 1
    (some ⟨5, ["MERCHANT"]⟩) (.obj [("warehouseId", .num (.fin 1))]) ?_ (Nat.le_refl 1) ?_
    ?_).2.2.2 _ rfl (by decide)
  · intro r hr
    cases hr
  · intro op hop
    simp only [List.mem_cons, List.mem_singleton, List.not_mem_nil, or_false] at hop
    rcases hop with rfl | rfl <;> rfl
  · show (JsValue.num (.fin 1)).toNumber = .ok (.fin ((1 : Nat) : ℚ))
    simp [JsValue.toNumber, JsValue.throwsOnToString, JsValue.toNumberCore]

/-! ### The booking state machine -/

/-- The array `allowed` holds a target exactly when the pair is in the
transition table. -/
theorem mem_allowedTargets_iff (status target : String) :
    (allowedTargets status).contains target = true ↔ inTransitionTable status target := by
  unfold allowedTargets inTransitionTable
  by_cases hp : status = "PENDING"
  · subst hp
    simp
  · by_cases ha : status = "ACCEPTED"
    · subst ha
      simp
    · simp [hp, ha]

/-- What PUT /bookings/:id does with a booking it found, by cases on the actor
and the target. -/
theorem putBooking_found (s : Store) (u : User) (idParam : JsNum) (toStatus : String)
    (b : Booking) (wh : WarehouseRow) (hb : findBooking s idParam = some b)
    (hw : findWarehouse s (.fin (b.warehouseId : ℚ)) = some wh) :
    putBooking s (some u) idParam toStatus =
      if mayTransition u wh = false then (.error 403 "Forbidden", s)
      else if (allowedTargets b.status).contains toStatus = false then
        (.error 422 "Invalid transition", s)
      else
        (.booking 200 b.id (ui toStatus),
          { s with
            bookings := s.bookings.map (fun x =>
              if x.id = b.id then { x with status := toStatus } else x)
            events := s.events ++ [⟨b.id, toStatus, none⟩] }) := by
  unfold putBooking
  simp only [hb, hw, mayTransition]
  by_cases h1 : (u.roles.contains "ADMIN" ||
      (u.roles.contains "WAREHOUSE_OWNER" && u.id == wh.data.ownerId)) = true
  · by_cases h2 : (allowedTargets b.status).contains toStatus = true
    · simp only [h1, h2, Bool.not_true, Bool.false_eq_true, if_false, Bool.true_eq_false]
    · rw [Bool.not_eq_true] at h2
      simp only [h1, h2, Bool.not_true, Bool.not_false, Bool.false_eq_true, if_false,
        if_true, Bool.true_eq_false]
  · rw [Bool.not_eq_true] at h1
    simp only [h1, Bool.not_false, if_true]

/-- C1. For a booking the request finds and an actor who may request a
transition, PUT /bookings/:id accepts the target exactly when the pair of the
booking's status and the target is in the transition table, and answers 422
`Invalid transition` otherwise; from REJECTED and from CANCELED every target is
answered 422. -/
theorem putBooking_accepts_iff (s : Store) (u : User) (idParam : JsNum) (toStatus : String)
    (b : Booking) (wh : WarehouseRow) (hb : findBooking s idParam = some b)
    (hw : findWarehouse s (.fin (b.warehouseId : ℚ)) = some wh)
    (hmay : mayTransition u wh = true) :
    ((putBooking s (some u) idParam toStatus).1 = .booking 200 b.id (ui toStatus) ↔
      inTransitionTable b.status toStatus) ∧
    (¬ inTransitionTable b.status toStatus →
      (putBooking s (some u) idParam toStatus).1 = .error 422 "Invalid transition") ∧
    (b.status = "REJECTED" ∨ b.status = "CANCELED" →
      (putBooking s (some u) idParam toStatus).1 = .error 422 "Invalid transition") := by
  rw [putBooking_found s u idParam toStatus b wh hb hw]
  simp only [hmay, Bool.true_eq_false, if_false]
  have hno : ¬ inTransitionTable b.status toStatus →
      (allowedTargets b.status).contains toStatus = false := by
    intro h
    cases hc : (allowedTargets b.status).contains toStatus
    · rfl
    · exact absurd ((mem_allowedTargets_iff _ _).1 hc) h
  refine ⟨?_, ?_, ?_⟩
  · constructor
    · intro h
      by_contra hn
      rw [if_pos (hno hn)] at h
      cases h
    · intro h
      rw [if_neg (by rw [(mem_allowedTargets_iff _ _).2 h]; exact Bool.noConfusion)]
  · intro hn
    rw [if_pos (hno hn)]
  · intro hs
    have hn : ¬ inTransitionTable b.status toStatus := by
      unfold inTransitionTable
      rcases hs with hs | hs <;> rw [hs] <;> simp
    rw [if_pos (hno hn)]

/-- C1 at the PENDING booking 1: the owner of its warehouse asks for CANCELED
and is answered with the canceled booking. -/
theorem putBooking_pending_canceled :
    (putBooking storeWithBooking (some ownerUser) (.fin 1) "CANCELED").1 =
      .booking 200 1 "canceled" :=
  (putBooking_accepts_iff storeWithBooking ownerUser (.fin 1) "CANCELED" ⟨1, 1, 5, "PENDING"⟩
    approvedWarehouse rfl rfl rfl).1.2 (Or.inl ⟨rfl, Or.inr (Or.inr rfl)⟩)

/-- C2. A request to PUT /bookings/:id whose target is not allowed from the
status of the booking it names leaves the whole store, and so the Booking row
and the BookingEvent list, as it was; from REJECTED no target is allowed. -/
theorem putBooking_invalid_unchanged (s : Store) (user : Option User) (idParam : JsNum)
    (toStatus : String)
    (h : ∀ b, findBooking s idParam = some b →
      (allowedTargets b.status).contains toStatus = false) :
    (putBooking s user idParam toStatus).2 = s ∧
    (putBooking s user idParam toStatus).2.bookings = s.bookings ∧
    (putBooking s user idParam toStatus).2.events = s.events ∧
    allowedTargets "REJECTED" = [] := by
  have hs : (putBooking s user idParam toStatus).2 = s := by
    unfold putBooking
    split
    · rfl
    · split
      · rfl
      · rename_i b hb
        split
        · rfl
        · dsimp only
          split
          · rfl
          · rw [h b hb]
            rfl
  rw [hs]
  exact ⟨rfl, rfl, rfl, rfl⟩

/-- C2 in the scenario of the specification: after the owner has canceled the
PENDING booking 1, a request for ACCEPTED on it leaves the store as it is. -/
theorem putBooking_canceled_then_accepted :
    (putBooking (putBooking storeWithBooking (some ownerUser) (.fin 1) "CANCELED").2
        (some ownerUser) (.fin 1) "ACCEPTED").2 =
      (putBooking storeWithBooking (some ownerUser) (.fin 1) "CANCELED").2 := by
  refine (putBooking_invalid_unchanged _ (some ownerUser) (.fin 1) "ACCEPTED" ?_).1
  intro b hb
  have hfound : findBooking (putBooking storeWithBooking (some ownerUser) (.fin 1) "CANCELED").2
      (.fin 1) = some ⟨1, 1, 5, "CANCELED"⟩ := rfl
  rw [hfound] at hb
  cases hb
  rfl

/-- C3. When PUT /bookings/:id accepts a target for the booking `b`, an actor
who may request it and a target in the transition table, the resulting store
has the status of every row with the id of `b` set to the target and all other
booking rows as they were; its event list is the previous list with one new
event appended, of the booking `b`, with the target as status and no note; the
events of `b` are its previous events followed by that one, the events of
every other booking are as they were; and no other table changes. -/
theorem putBooking_accepted_effect (s : Store) (u : User) (idParam : JsNum)
    (toStatus : String) (b : Booking) (wh : WarehouseRow)
    (hb : findBooking s idParam = some b)
    (hw : findWarehouse s (.fin (b.warehouseId : ℚ)) = some wh)
    (hmay : mayTransition u wh = true) (htable : inTransitionTable b.status toStatus) :
    (putBooking s (some u) idParam toStatus).1 = .booking 200 b.id (ui toStatus) ∧
    (putBooking s (some u) idParam toStatus).2.bookings =
      s.bookings.map (fun x => if x.id = b.id then { x with status := toStatus } else x) ∧
    (∀ x, x ∈ (putBooking s (some u) idParam toStatus).2.bookings → x.id = b.id →
      x.status = toStatus) ∧
    (∀ x, x ∈ s.bookings → x.id ≠ b.id →
      x ∈ (putBooking s (some u) idParam toStatus).2.bookings) ∧
    (putBooking s (some u) idParam toStatus).2.events = s.events ++ [⟨b.id, toStatus, none⟩] ∧
    (putBooking s (some u) idParam toStatus).2.events.filter (fun e => e.bookingId == b.id) =
      s.events.filter (fun e => e.bookingId == b.id) ++ [⟨b.id, toStatus, none⟩] ∧
    (∀ k, k ≠ b.id →
      (putBooking s (some u) idParam toStatus).2.events.filter (fun e => e.bookingId == k) =
        s.events.filter (fun e => e.bookingId == k)) ∧
    (putBooking s (some u) idParam toStatus).2.warehouses = s.warehouses ∧
    (putBooking s (some u) idParam toStatus).2.listings = s.listings := by
  rw [putBooking_found s u idParam toStatus b wh hb hw,
    if_neg (by rw [hmay]; exact Bool.noConfusion),
    if_neg (by rw [(mem_allowedTargets_iff _ _).2 htable]; exact Bool.noConfusion)]
  refine ⟨rfl, rfl, ?_, ?_, rfl, ?_, ?_, rfl, rfl⟩
  · intro x hx hid
    simp only [List.mem_map] at hx
    obtain ⟨y, -, rfl⟩ := hx
    by_cases hy : y.id = b.id
    · rw [if_pos hy]
    · rw [if_neg hy] at hid
      exact absurd hid hy
  · intro x hx hid
    simp only [List.mem_map]
    exact ⟨x, hx, by rw [if_neg hid]⟩
  · simp [List.filter_append]
  · intro k hk
    have hne : (b.id == k) = false := by
      simpa using fun h : b.id = k => hk h.symm
    simp [List.filter_append, hne]

/-- C3 in the scenario of the specification: the owner cancels the PENDING
booking 1; the booking is CANCELED and its events are PENDING, CANCELED. -/
theorem putBooking_cancel_effect :
    (putBooking storeWithBooking (some ownerUser) (.fin 1) "CANCELED").2.bookings =
      [⟨1, 1, 5, "CANCELED"⟩] ∧
    (putBooking storeWithBooking (some ownerUser) (.fin 1) "CANCELED").2.events =
      [⟨1, "PENDING", none⟩, ⟨1, "CANCELED", none⟩] := by
  have h := putBooking_accepted_effect storeWithBooking ownerUser (.fin 1) "CANCELED"
    ⟨1, 1, 5, "PENDING"⟩ approvedWarehouse rfl rfl rfl (Or.inl ⟨rfl, Or.inr (Or.inr rfl)⟩)
  exact ⟨h.2.1, h.2.2.2.2.1⟩

/-- C7. For a booking the request finds: PUT /bookings/:id answers with the
changed booking only to an actor who holds ADMIN or whose id is the `ownerId`
of the booking's warehouse; every other actor is answered 403 `Forbidden`,
whatever the target, and the store stays as it was. -/
theorem putBooking_forbidden (s : Store) (u : User) (idParam : JsNum) (toStatus : String)
    (b : Booking) (wh : WarehouseRow) (hb : findBooking s idParam = some b)
    (hw : findWarehouse s (.fin (b.warehouseId : ℚ)) = some wh) :
    ((putBooking s (some u) idParam toStatus).1 = .booking 200 b.id (ui toStatus) →
      "ADMIN" ∈ u.roles ∨ u.id = wh.data.ownerId) ∧
    (¬ ("ADMIN" ∈ u.roles ∨ u.id = wh.data.ownerId) →
      putBooking s (some u) idParam toStatus = (.error 403 "Forbidden", s)) := by
  rw [putBooking_found s u idParam toStatus b wh hb hw]
  have hiff : mayTransition u wh = true → "ADMIN" ∈ u.roles ∨ u.id = wh.data.ownerId := by
    intro h
    simp only [mayTransition, Bool.or_eq_true, Bool.and_eq_true, beq_iff_eq] at h
    rcases h with h | ⟨-, h⟩
    · exact Or.inl (by simpa using h)
    · exact Or.inr h
  constructor
  · intro h
    by_cases hm : mayTransition u wh = true
    · exact hiff hm
    · rw [Bool.not_eq_true] at hm
      rw [if_pos hm] at h
      cases h
  · intro hn
    have hm : mayTransition u wh = false := by
      cases hc : mayTransition u wh
      · rfl
      · exact absurd (hiff hc) hn
    rw [if_pos hm]

/-- C7 at the PENDING booking 1 of warehouse 1: a MERCHANT who asks for
ACCEPTED is answered 403 `Forbidden` and nothing changes. -/
theorem putBooking_merchant_forbidden :
    putBooking storeWithBooking (some merchantUser) (.fin 1) "ACCEPTED" =
      (.error 403 "Forbidden", storeWithBooking) :=
  (putBooking_forbidden storeWithBooking merchantUser (.fin 1) "ACCEPTED" ⟨1, 1, 5, "PENDING"⟩
    approvedWarehouse rfl rfl).2 (by decide)

/-- The role check of POST /bookings passes a user who holds MERCHANT. -/
theorem requireRole_merchant (u : User) (hm : "MERCHANT" ∈ u.roles) :
    requireRole (.one "MERCHANT") (some u) = .next := by
  have : u.roles.any (fun r => ["MERCHANT"].contains r) = true :=
    List.any_eq_true.2 ⟨"MERCHANT", hm, by decide⟩
  simp only [requireRole, RolesArg.allowed, this, if_true]

/-- POST /bookings answers a user who does not hold MERCHANT with 403
`Forbidden` and changes nothing. -/
theorem postBooking_requires_merchant (s : Store) (u : User) (body : JsValue)
    (hm : "MERCHANT" ∉ u.roles) :
    postBooking s (some u) body = (.error 403 "Forbidden", s) := by
  have hany : u.roles.any (fun r => ["MERCHANT"].contains r) = false := by
    rw [List.any_eq_false]
    intro r hr hc
    have : r = "MERCHANT" := by simpa using hc
    exact hm (this ▸ hr)
  simp only [postBooking, requireRole, RolesArg.allowed, hany]
  rfl

/-- C6. For a MERCHANT and a `warehouseId` that is the number `w`: when the
lookup finds a warehouse that is PUBLISHED, approved and not disabled, POST
/bookings answers 201 and appends one PENDING booking of that warehouse and
merchant and one PENDING event of that booking; when it finds none, or one that
fails one of the three conditions, it answers 400 `Warehouse not bookable` and
leaves the store as it was; so it creates a booking exactly in the first
case. -/
theorem postBooking_creates_iff (s : Store) (u : User) (body : JsValue) (w : Nat)
    (hm : "MERCHANT" ∈ u.roles)
    (hbody : (body.getProp "warehouseId").toNumber = .ok (.fin (w : ℚ))) :
    (∀ wh, findWarehouse s (.fin (w : ℚ)) = some wh → wh.status = some "PUBLISHED" →
      wh.data.isApproved = true → wh.isDisabledByAdmin = false →
      wh.id = w ∧
      postBooking s (some u) body =
        (.booking 201 s.nextBookingId "pending",
          { s with
            bookings := s.bookings ++ [⟨s.nextBookingId, wh.id, u.id, "PENDING"⟩]
            events := s.events ++ [⟨s.nextBookingId, "PENDING", none⟩]
            nextBookingId := s.nextBookingId + 1 })) ∧
    ((∀ wh, findWarehouse s (.fin (w : ℚ)) = some wh →
        ¬ (wh.status = some "PUBLISHED" ∧ wh.data.isApproved = true ∧
          wh.isDisabledByAdmin = false)) →
      postBooking s (some u) body = (.error 400 "Warehouse not bookable", s)) ∧
    ((postBooking s (some u) body).2.bookings ≠ s.bookings ↔
      ∃ wh, findWarehouse s (.fin (w : ℚ)) = some wh ∧ wh.status = some "PUBLISHED" ∧
        wh.data.isApproved = true ∧ wh.isDisabledByAdmin = false) := by
  have hreq := requireRole_merchant u hm
  have hgood : ∀ wh, findWarehouse s (.fin (w : ℚ)) = some wh → wh.status = some "PUBLISHED" →
      wh.data.isApproved = true → wh.isDisabledByAdmin = false →
      postBooking s (some u) body =
        (.booking 201 s.nextBookingId "pending",
          { s with
            bookings := s.bookings ++ [⟨s.nextBookingId, wh.id, u.id, "PENDING"⟩]
            events := s.events ++ [⟨s.nextBookingId, "PENDING", none⟩]
            nextBookingId := s.nextBookingId + 1 }) := by
    intro wh hwh h1 h2 h3
    have hnb : notBookable (some wh) = false := by simp [notBookable, h1, h2, h3]
    simp only [postBooking, hreq, hbody, hwh, hnb]
    rfl
  have hbad : (∀ wh, findWarehouse s (.fin (w : ℚ)) = some wh →
        ¬ (wh.status = some "PUBLISHED" ∧ wh.data.isApproved = true ∧
          wh.isDisabledByAdmin = false)) →
      postBooking s (some u) body = (.error 400 "Warehouse not bookable", s) := by
    intro h
    cases hwh : findWarehouse s (.fin (w : ℚ)) with
    | none => simp only [postBooking, hreq, hbody, hwh]
    | some wh =>
      have hnb : notBookable (some wh) = true := by
        have := h wh hwh
        simp only [notBookable, Bool.or_eq_true, bne_iff_ne, ne_eq, Bool.not_eq_true']
        by_contra hc
        push_neg at hc
        exact this ⟨hc.1.1, by simpa using hc.1.2, by simpa using hc.2⟩
      simp only [postBooking, hreq, hbody, hwh, hnb, if_true]
  refine ⟨fun wh hwh h1 h2 h3 => ⟨?_, hgood wh hwh h1 h2 h3⟩, hbad, ?_⟩
  · exact fin_natCast_inj _ _ (findWarehouse_some s _ wh hwh).2
  · constructor
    · intro hne
      by_contra hno
      have hall : ∀ wh, findWarehouse s (.fin (w : ℚ)) = some wh →
          ¬ (wh.status = some "PUBLISHED" ∧ wh.data.isApproved = true ∧
            wh.isDisabledByAdmin = false) :=
        fun wh hwh hc => hno ⟨wh, hwh, hc⟩
      rw [hbad hall] at hne
      exact hne rfl
    · rintro ⟨wh, hwh, h1, h2, h3⟩
      rw [hgood wh hwh h1 h2 h3]
      intro heq
      have hlen := congrArg List.length heq
      simp at hlen

/-- C6 at warehouse 1, which is PUBLISHED, approved and not disabled: a MERCHANT
books it and gets booking 1, PENDING, with one PENDING event. -/
theorem postBooking_books_warehouse1 :
    (postBooking storeWithWarehouse (some merchantUser)
      (.obj [("warehouseId", .num (.fin 1))])).1 = .booking 201 1 "pending" ∧
    (postBooking storeWithWarehouse (some merchantUser)
      (.obj [("warehouseId", .num (.fin 1))])).2.bookings = [⟨1, 1, 5, "PENDING"⟩] ∧
    (postBooking storeWithWarehouse (some merchantUser)
      (.obj [("warehouseId", .num (.fin 1))])).2.events = [⟨1, "PENDING", none⟩] := by
  have hbody : ((JsValue.obj [("warehouseId", .num (.fin 1))]).getProp "warehouseId").toNumber =
      .ok (.fin ((1 : Nat) : ℚ)) := by
    simp [JsValue.getProp, lookupField, JsValue.toNumber, JsValue.throwsOnToString,
      JsValue.toNumberCore]
  have h := (postBooking_creates_iff storeWithWarehouse merchantUser
    (.obj [("warehouseId", .num (.fin 1))]) 1 (by decide) hbody).1 approvedWarehouse rfl rfl rfl rfl
  rw [h.2]
  exact ⟨rfl, rfl, rfl⟩

/-- C5 fails at POST /book: the alias never reads the caller's roles. With the
token of user 2, who holds WAREHOUSE_OWNER only, POST /bookings answers 403
`Forbidden` and changes nothing, and POST /book creates the PENDING booking 1
of warehouse 1 for user 2. -/
theorem postBook_ignores_roles :
    "MERCHANT" ∉ ownerUser.roles ∧
    postBooking storeWithWarehouse (some ownerUser) (.obj [("warehouseId", .num (.fin 1))]) =
      (.error 403 "Forbidden", storeWithWarehouse) ∧
    (postBook storeWithWarehouse (.verified (.fin 2))
      (.obj [("warehouseId", .num (.fin 1))])).1 = .booking 200 1 "PENDING" ∧
    (postBook storeWithWarehouse (.verified (.fin 2))
      (.obj [("warehouseId", .num (.fin 1))])).2.bookings = [⟨1, 1, 2, "PENDING"⟩] :=
  ⟨by decide, postBooking_requires_merchant _ _ _ (by decide), rfl, rfl⟩

/-- C4 fails at POST /book: the alias creates the PENDING booking 1 and no
BookingEvent, so the booking has no event whose status could be its own. -/
theorem postBook_creates_no_event :
    (postBook storeWithWarehouse (.verified (.fin 5))
      (.obj [("warehouseId", .num (.fin 1))])).2.bookings = [⟨1, 1, 5, "PENDING"⟩] ∧
    (postBook storeWithWarehouse (.verified (.fin 5))
      (.obj [("warehouseId", .num (.fin 1))])).2.events = [] ∧
    (postBooking storeWithWarehouse (some merchantUser)
      (.obj [("warehouseId", .num (.fin 1))])).2.events = [⟨1, "PENDING", none⟩] :=
  ⟨rfl, rfl, rfl⟩

/-! ### The promotion step of PUT /listings/:id -/

/-- The warehouse table after PUT /listings/:id: as before, or with one new
row, which happens only for a listing the request just published whose marker
the lookup did not find, and whose record the route built. -/
theorem putListing_warehouses (sch : Schema) (s : Store) (auth : Option Nat)
    (idParam : JsNum) (body : JsValue) :
    (putListing sch s auth idParam body).2.warehouses = s.warehouses ∨
    ∃ ownerId existing updated d,
      listingsUser auth = some ownerId ∧ findListing s idParam ownerId = some existing ∧
      justPublished (body.or (.obj [])) existing = true ∧
      findPromoted s ownerId (originTag existing.id) = none ∧
      routeWarehouseData ownerId existing.id updated = .ok d ∧
      (putListing sch s auth idParam body).2.warehouses =
        s.warehouses ++ [⟨s.nextWarehouseId, d, sch.warehouseStatus, sch.warehouseDisabled⟩] := by
  unfold putListing
  split
  · exact Or.inl rfl
  · rename_i ownerId hauth
    split
    · exact Or.inl rfl
    · split
      · exact Or.inl rfl
      · rename_i existing hex
        dsimp only
        split
        · exact Or.inl rfl
        · rename_i updated hup
          split
          · rename_i hjust
            split
            · exact Or.inl rfl
            · rename_i hnone
              split
              · exact Or.inl rfl
              · rename_i d hd
                exact Or.inr ⟨ownerId, existing, updated, d, hauth, hex, hjust, hnone, hd, rfl⟩
          · exact Or.inl rfl

/-- What PUT /listings/:id does with a listing the requester owns and a body
the store accepts: the listing table is updated, and under `justPublished` the
marker lookup decides whether a warehouse is created. -/
theorem putListing_found (sch : Schema) (s : Store) (auth : Option Nat) (idParam : JsNum)
    (body : JsValue) (ownerId : Nat) (existing updated : Listing)
    (hauth : listingsUser auth = some ownerId) (hfin : idParam.isFinite = true)
    (hex : findListing s idParam ownerId = some existing)
    (hup : applyPatch existing (listingPatch sch (body.or (.obj []))) = some updated) :
    putListing sch s auth idParam body =
      if justPublished (body.or (.obj [])) existing = true then
        match findPromoted s ownerId (originTag existing.id) with
        | some _ =>
          (.listing 200 updated,
            { s with listings :=
              updateListings s.listings existing.id (listingPatch sch (body.or (.obj []))) })
        | none =>
          match routeWarehouseData ownerId existing.id updated with
          | .error e =>
            (.thrown e,
              { s with listings :=
                updateListings s.listings existing.id (listingPatch sch (body.or (.obj []))) })
          | .ok d =>
            (.listing 200 updated,
              createWarehouse sch
                { s with listings :=
                  updateListings s.listings existing.id (listingPatch sch (body.or (.obj []))) }
                d)
      else
        (.listing 200 updated,
          { s with listings :=
            updateListings s.listings existing.id (listingPatch sch (body.or (.obj []))) }) := by
  simp only [putListing, hauth, hfin, hex, hup]
  rfl

/-- C8. PUT /listings/:id on a listing the requester owns, with a body the
store accepts: `justPublished` holds exactly when the body's status is
PUBLISHED and the previous status is not; when it does not hold the answer is
the updated listing and only the listing table changes; when it holds the
marker lookup runs and a warehouse is created only if it finds nothing. For
every request: the warehouse table changes only if the request names a listing
whose previous status is not PUBLISHED and asks for PUBLISHED. -/
theorem putListing_promotes_iff (sch : Schema) (s : Store) (auth : Option Nat)
    (idParam : JsNum) (body : JsValue) :
    (∀ ownerId existing updated, listingsUser auth = some ownerId →
      idParam.isFinite = true → findListing s idParam ownerId = some existing →
      applyPatch existing (listingPatch sch (body.or (.obj []))) = some updated →
      (justPublished (body.or (.obj [])) existing = true ↔
        (body.or (.obj [])).getProp "status" = .str "PUBLISHED" ∧
          existing.status ≠ "PUBLISHED") ∧
      (justPublished (body.or (.obj [])) existing = false →
        putListing sch s auth idParam body =
          (.listing 200 updated,
            { s with listings :=
              updateListings s.listings existing.id (listingPatch sch (body.or (.obj []))) })) ∧
      (justPublished (body.or (.obj [])) existing = true →
        putListing sch s auth idParam body =
          match findPromoted s ownerId (originTag existing.id) with
          | some _ =>
            (.listing 200 updated,
              { s with listings :=
                updateListings s.listings existing.id (listingPatch sch (body.or (.obj []))) })
          | none =>
            match routeWarehouseData ownerId existing.id updated with
            | .error e =>
              (.thrown e,
                { s with listings :=
                  updateListings s.listings existing.id (listingPatch sch (body.or (.obj []))) })
            | .ok d =>
              (.listing 200 updated,
                createWarehouse sch
                  { s with listings :=
                    updateListings s.listings existing.id (listingPatch sch (body.or (.obj []))) }
                  d))) ∧
    ((putListing sch s auth idParam body).2.warehouses ≠ s.warehouses →
      ∃ ownerId existing, listingsUser auth = some ownerId ∧
        findListing s idParam ownerId = some existing ∧
        (body.or (.obj [])).getProp "status" = .str "PUBLISHED" ∧
        existing.status ≠ "PUBLISHED") := by
  have hiff : ∀ existing : Listing, justPublished (body.or (.obj [])) existing = true ↔
      (body.or (.obj [])).getProp "status" = .str "PUBLISHED" ∧
        existing.status ≠ "PUBLISHED" := by
    intro existing
    unfold justPublished JsValue.isString
    cases (body.or (.obj [])).getProp "status" <;> simp
  constructor
  · intro ownerId existing updated hauth hfin hex hup
    rw [putListing_found sch s auth idParam body ownerId existing updated hauth hfin hex hup]
    refine ⟨hiff existing, ?_, ?_⟩
    · intro hj
      rw [if_neg (by rw [hj]; exact Bool.noConfusion)]
    · intro hj
      rw [if_pos hj]
  · intro hne
    rcases putListing_warehouses sch s auth idParam body with h | ⟨o, e, u, d, ha, he, hj, -, -, -⟩
    · exact absurd h hne
    · exact ⟨o, e, ha, he, (hiff e).1 hj⟩

/-- C8 at the published Listing #7: its owner sends PUBLISHED again and no
warehouse is created. -/
theorem putListing_published_again :
    (putListing exampleSchema storeWithListing7 (some 2) (.fin 7)
      (.obj [("status", .str "PUBLISHED")])).2.warehouses = [] := by
  have h := (putListing_promotes_iff exampleSchema storeWithListing7 (some 2) (.fin 7)
    (.obj [("status", .str "PUBLISHED")])).1 2 listing7 listing7 rfl rfl rfl rfl
  rw [h.2.1 rfl]
  rfl

/-- The record the route builds for a listing matches the marker lookup of that
listing by the requester. -/
theorem routeWarehouseData_matchesLookup (ownerId id : Nat) (l : Listing) (d : WarehouseData)
    (h : routeWarehouseData ownerId id l = .ok d) :
    d.ownerId = ownerId ∧ (originTag id).data <:+ d.description.data ∧
      matchesLookup d ownerId (originTag id) = true := by
  obtain ⟨p, t, -, -, rfl⟩ := (routeWarehouseData_ok_iff ownerId id l d).1 h
  have hs := originTag_suffix_promotedDescription l.description id
  refine ⟨rfl, hs, ?_⟩
  simp only [matchesLookup, beq_self_eq_true, Bool.true_and]
  exact containsInsensitive_of_suffix _ _ hs

/-- One request to PUT /listings/:id by the user `uid` on the listing id `n`
leaves the warehouse table as it was, or adds one row that matches the marker
lookup of the listing, the latter only when no row matched before. -/
theorem putListing_adds_at_most_one (sch : Schema) (s : Store) (uid n : Nat) (body : JsValue) :
    (putListing sch s (some uid) (.fin (n : ℚ)) body).2.warehouses = s.warehouses ∨
    ∃ r, (putListing sch s (some uid) (.fin (n : ℚ)) body).2.warehouses = s.warehouses ++ [r] ∧
      r.data.ownerId = uid ∧ (originTag n).data <:+ r.data.description.data ∧
      matchesLookup r.data uid (originTag n) = true ∧
      ∀ r', r' ∈ s.warehouses → matchesLookup r'.data uid (originTag n) = false := by
  rcases putListing_warehouses sch s (some uid) (.fin (n : ℚ)) body with
    h | ⟨o, e, u, d, ha, he, -, hnone, hd, hw⟩
  · exact Or.inl h
  · have ho : o = uid := by
      unfold listingsUser at ha
      split at ha
      · cases ha
      · rename_i uid' hu
        cases hu
        split at ha
        · cases ha
        · cases ha
          rfl
    subst ho
    have hid : e.id = n := fin_natCast_inj _ _ (findListing_some s _ _ e he).2.1
    rw [hid] at hd hnone
    obtain ⟨h1, h2, h3⟩ := routeWarehouseData_matchesLookup o n u d hd
    refine Or.inr ⟨_, hw, h1, h2, h3, ?_⟩
    intro r' hr'
    have := List.find?_eq_none.1 hnone r' hr'
    simpa using this

/-- C9. For every store, listing id `n`, user and sequence of update requests
by that user on that listing, whatever their bodies (PUBLISHED twice, or
PUBLISHED, DRAFT, PUBLISHED): the warehouse table at the end is the table at
the start followed by at most one new row; a new row is owned by the user and
its description ends with the marker `[origin:listing:n]`; and no row is added
when the user had a warehouse matching the marker at the start. In one request:
when such a warehouse exists, no warehouse is created, and a listing the
lookup finds, with a body the store accepts, is still updated and answered. -/
theorem promotion_at_most_once (sch : Schema) (s : Store) (uid n : Nat)
    (bodies : List JsValue) (body : JsValue) :
    (∃ extra, (putAll sch s (some uid) (.fin (n : ℚ)) bodies).warehouses =
        s.warehouses ++ extra ∧ extra.length ≤ 1 ∧
      (∀ r, r ∈ extra → r.data.ownerId = uid ∧
        (originTag n).data <:+ r.data.description.data ∧
        matchesLookup r.data uid (originTag n) = true) ∧
      ((∃ r, r ∈ s.warehouses ∧ matchesLookup r.data uid (originTag n) = true) →
        extra = [])) ∧
    ((∃ r, r ∈ s.warehouses ∧ matchesLookup r.data uid (originTag n) = true) →
      (putListing sch s (some uid) (.fin (n : ℚ)) body).2.warehouses = s.warehouses ∧
      ∀ existing updated, uid ≠ 0 → findListing s (.fin (n : ℚ)) uid = some existing →
        applyPatch existing (listingPatch sch (body.or (.obj []))) = some updated →
        putListing sch s (some uid) (.fin (n : ℚ)) body =
          (.listing 200 updated,
            { s with listings :=
              updateListings s.listings existing.id (listingPatch sch (body.or (.obj []))) })) := by
  constructor
  · induction bodies generalizing s with
    | nil => exact ⟨[], by simp [putAll], by simp, by simp, fun _ => rfl⟩
    | cons b rest ih =>
      obtain ⟨extra1, hw1, hlen1, hall1, hnone1⟩ :=
        ih (putListing sch s (some uid) (.fin (n : ℚ)) b).2
      have hfold : putAll sch s (some uid) (.fin (n : ℚ)) (b :: rest) =
          putAll sch (putListing sch s (some uid) (.fin (n : ℚ)) b).2 (some uid)
            (.fin (n : ℚ)) rest := rfl
      rw [hfold, hw1]
      rcases putListing_adds_at_most_one sch s uid n b with h | ⟨r, hr, ho, hsuf, hmatch, hno⟩
      · rw [h] at hnone1 ⊢
        exact ⟨extra1, rfl, hlen1, hall1, hnone1⟩
      · have hempty : extra1 = [] := by
          apply hnone1
          refine ⟨r, ?_, hmatch⟩
          rw [hr]
          simp
        subst hempty
        rw [hr]
        refine ⟨[r], by simp, by simp, ?_, ?_⟩
        · intro r' hr'
          rw [List.mem_singleton.1 hr']
          exact ⟨ho, hsuf, hmatch⟩
        · rintro ⟨r', hr', hm'⟩
          rw [hno r' hr'] at hm'
          cases hm'
  · rintro ⟨r, hr, hm⟩
    have hfound : ∃ x, findPromoted s uid (originTag n) = some x := by
      cases hf : findPromoted s uid (originTag n) with
      | some x => exact ⟨x, rfl⟩
      | none =>
        have := List.find?_eq_none.1 hf r hr
        rw [hm] at this
        exact absurd rfl this
    constructor
    · rcases putListing_adds_at_most_one sch s uid n body with h | ⟨r', -, -, -, -, hno⟩
      · exact h
      · rw [hno r hr] at hm
        cases hm
    · intro existing updated huid hex hup
      obtain ⟨x, hx⟩ := hfound
      have hid : existing.id = n := fin_natCast_inj _ _ (findListing_some s _ _ existing hex).2.1
      have hauth : listingsUser (some uid) = some uid := by simp [listingsUser, huid]
      have hfin : (JsNum.fin (n : ℚ)).isFinite = true := rfl
      rw [← hid] at hx
      rw [putListing_found sch s (some uid) (.fin (n : ℚ)) body uid existing updated hauth hfin
        hex hup, hx]
      by_cases hj : justPublished (body.or (.obj [])) existing = true
      · rw [if_pos hj]
      · rw [if_neg hj]

/-- C9 at the draft Listing #7: its owner sends PUBLISHED, then DRAFT, then
PUBLISHED, then PUBLISHED; at most one row was added, and the table at the end
holds one warehouse, with the marker of Listing #7 as description. -/
theorem promotion_once_listing7 :
    (∃ extra, (putAll exampleSchema storeWithDraft7 (some 2) (.fin 7)
        [.obj [("status", .str "PUBLISHED")], .obj [("status", .str "DRAFT")],
          .obj [("status", .str "PUBLISHED")], .obj [("status", .str "PUBLISHED")]]).warehouses =
        storeWithDraft7.warehouses ++ extra ∧ extra.length ≤ 1) ∧
    (putAll exampleSchema storeWithDraft7 (some 2) (.fin 7)
      [.obj [("status", .str "PUBLISHED")], .obj [("status", .str "DRAFT")],
        .obj [("status", .str "PUBLISHED")], .obj [("status", .str "PUBLISHED")]]).warehouses.map
      (fun r => (r.id, r.data.description)) = [(1, "[origin:listing:7]")] := by
  obtain ⟨extra, hw, hlen, -, -⟩ := (promotion_at_most_once exampleSchema storeWithDraft7 2 7
    [.obj [("status", .str "PUBLISHED")], .obj [("status", .str "DRAFT")],
      .obj [("status", .str "PUBLISHED")], .obj [("status", .str "PUBLISHED")]] .null).1
  exact ⟨⟨extra, hw, hlen⟩, rfl⟩

/-- C10 fails on values that are not numeric. For `abc` the route's coercion
gives `NaN` where the script's gives `null`; for the blank string of one space
both give 0; for an object with an own `toString` property both throw; and the
record the route builds for the listing with the rate `n/a` carries `NaN` as
`pricePerSqFt`. -/
theorem pricePerSqFt_on_non_numeric :
    coerceOrNull (.str "abc") = .ok (some .nan) ∧
    toNumberOrNull (.str "abc") = .ok none ∧
    coerceOrNull (.str " ") = .ok (some (.fin 0)) ∧
    toNumberOrNull (.str " ") = .ok (some (.fin 0)) ∧
    coerceOrNull (.obj [("toString", .null)]) = .error .typeError ∧
    toNumberOrNull (.obj [("toString", .null)]) = .error .typeError ∧
    (∃ w, routeWarehouseData 2 9 nonNumericListing = .ok w ∧ w.pricePerSqFt = some .nan) :=
  ⟨rfl, rfl, rfl, rfl, rfl, rfl,
    _, (routeWarehouseData_ok_iff 2 9 nonNumericListing _).2 ⟨_, _, rfl, rfl, rfl⟩, rfl⟩

/-! ### Booking status and event history -/

/-- A store with the same bookings, events and counter has the same fresh
booking ids and the same explained statuses. -/
theorem explained_of_same_bookings (s s' : Store) (hb : s'.bookings = s.bookings)
    (he : s'.events = s.events) (hn : s'.nextBookingId = s.nextBookingId)
    (h : FreshBookingIds s ∧ StatusExplained s) : FreshBookingIds s' ∧ StatusExplained s' := by
  unfold FreshBookingIds StatusExplained statusEvents at *
  rw [hb, he, hn]
  exact h

/-- POST /listings changes no booking and no event. -/
theorem postListing_bookings (sch : Schema) (s : Store) (auth : Option Nat) (now : String)
    (body : JsValue) :
    (postListing sch s auth now body).2.bookings = s.bookings ∧
      (postListing sch s auth now body).2.events = s.events ∧
      (postListing sch s auth now body).2.nextBookingId = s.nextBookingId := by
  unfold postListing
  repeat' (first | exact ⟨rfl, rfl, rfl⟩ | split | dsimp only)

/-- PUT /listings/:id changes no booking and no event. -/
theorem putListing_bookings (sch : Schema) (s : Store) (auth : Option Nat) (idParam : JsNum)
    (body : JsValue) :
    (putListing sch s auth idParam body).2.bookings = s.bookings ∧
      (putListing sch s auth idParam body).2.events = s.events ∧
      (putListing sch s auth idParam body).2.nextBookingId = s.nextBookingId := by
  unfold putListing
  repeat' (first | exact ⟨rfl, rfl, rfl⟩ | split | dsimp only)

/-- A run of the backfill changes no booking and no event. -/
theorem backfillLoop_bookings (sch : Schema) (dry : Bool) (ls : List Listing) (s : Store)
    (created skipped : Nat) :
    (backfillLoop sch dry ls s created skipped).1.bookings = s.bookings ∧
      (backfillLoop sch dry ls s created skipped).1.events = s.events ∧
      (backfillLoop sch dry ls s created skipped).1.nextBookingId = s.nextBookingId := by
  induction ls generalizing s created skipped with
  | nil => exact ⟨rfl, rfl, rfl⟩
  | cons l rest ih =>
    unfold backfillLoop
    split
    · exact ih s _ _
    · split
      · exact ⟨rfl, rfl, rfl⟩
      · split
        · exact ih s _ _
        · exact ih _ _ _

/-- The approve route changes no booking and no event. -/
theorem adminApprove_bookings (s : Store) (dbRoles : Option (List String)) (idParam : JsNum)
    (body : JsValue) :
    (adminApprove s dbRoles idParam body).2.bookings = s.bookings ∧
      (adminApprove s dbRoles idParam body).2.events = s.events ∧
      (adminApprove s dbRoles idParam body).2.nextBookingId = s.nextBookingId := by
  unfold adminApprove
  repeat' (first | exact ⟨rfl, rfl, rfl⟩ | split)

/-- The deletion of a warehouse row changes no booking and no event. -/
theorem deleteWarehouseRow_bookings (s : Store) (idParam : JsNum) :
    (deleteWarehouseRow s idParam).2.bookings = s.bookings ∧
      (deleteWarehouseRow s idParam).2.events = s.events ∧
      (deleteWarehouseRow s idParam).2.nextBookingId = s.nextBookingId := by
  unfold deleteWarehouseRow
  repeat' (first | exact ⟨rfl, rfl, rfl⟩ | split)

/-- POST /bookings keeps the booking ids fresh and the statuses explained. -/
theorem explained_postBooking (s : Store) (user : Option User) (body : JsValue)
    (h : FreshBookingIds s ∧ StatusExplained s) :
    FreshBookingIds (postBooking s user body).2 ∧ StatusExplained (postBooking s user body).2 := by
  unfold postBooking
  split
  · exact h
  · split
    · exact h
    · split
      · exact h
      · split
        · exact h
        · split
          · exact h
          · rename_i u _ _ _ wh _ _
            obtain ⟨⟨hfb, hfe⟩, hex⟩ := h
            refine ⟨⟨?_, ?_⟩, ?_⟩
            · intro b hb
              simp only [List.mem_append, List.mem_singleton] at hb
              rcases hb with hb | rfl
              · exact Nat.lt_succ_of_lt (hfb b hb)
              · exact Nat.lt_succ_self _
            · intro e he
              simp only [List.mem_append, List.mem_singleton] at he
              rcases he with he | rfl
              · exact Nat.lt_succ_of_lt (hfe e he)
              · exact Nat.lt_succ_self _
            · intro b hb
              simp only [List.mem_append, List.mem_singleton] at hb
              simp only [statusEvents, List.filter_append]
              rcases hb with hb | rfl
              · have hne : (s.nextBookingId == b.id) = false := by
                  have := hfb b hb
                  simp only [beq_eq_false_iff_ne, ne_eq]
                  omega
                simpa [hne, statusEvents] using hex b hb
              · have hnil : s.events.filter
                    (fun e => e.bookingId == s.nextBookingId && e.note.isNone) = [] := by
                  rw [List.filter_eq_nil_iff]
                  intro e he
                  have := hfe e he
                  have hne : (e.bookingId == s.nextBookingId) = false := by
                    simp only [beq_eq_false_iff_ne, ne_eq]
                    omega
                  simp [hne]
                simp [hnil]

/-- PUT /bookings/:id keeps the booking ids fresh and the statuses explained. -/
theorem explained_putBooking (s : Store) (user : Option User) (idParam : JsNum)
    (toStatus : String) (h : FreshBookingIds s ∧ StatusExplained s) :
    FreshBookingIds (putBooking s user idParam toStatus).2 ∧
      StatusExplained (putBooking s user idParam toStatus).2 := by
  unfold putBooking
  split
  · exact h
  · split
    · exact h
    · rename_i b hb
      split
      · exact h
      · dsimp only
        split
        · exact h
        · split
          · exact h
          · obtain ⟨⟨hfb, hfe⟩, hex⟩ := h
            have hbid : b.id < s.nextBookingId := by
              unfold findBooking at hb
              exact hfb b (List.mem_of_find?_eq_some hb)
            refine ⟨⟨?_, ?_⟩, ?_⟩
            · intro x hx
              simp only [List.mem_map] at hx
              obtain ⟨y, hy, rfl⟩ := hx
              by_cases hc : y.id = b.id
              · rw [if_pos hc]
                exact hfb y hy
              · rw [if_neg hc]
                exact hfb y hy
            · intro e he
              simp only [List.mem_append, List.mem_singleton] at he
              rcases he with he | rfl
              · exact hfe e he
              · exact hbid
            · intro x hx
              simp only [List.mem_map] at hx
              obtain ⟨y, hy, rfl⟩ := hx
              simp only [statusEvents, List.filter_append]
              by_cases hc : y.id = b.id
              · rw [if_pos hc]
                simp [hc]
              · rw [if_neg hc]
                have hne : (b.id == y.id) = false := by
                  simpa using fun h : b.id = y.id => hc h.symm
                simpa [hne, statusEvents] using hex y hy

/-- POST /bookings/message keeps the booking ids fresh and the statuses
explained: the event it appends carries a note. -/
theorem explained_postMessage (s : Store) (user : Option User) (bookingId : JsNum)
    (message : String) (h : FreshBookingIds s ∧ StatusExplained s) :
    FreshBookingIds (postMessage s user bookingId message).2 ∧
      StatusExplained (postMessage s user bookingId message).2 := by
  unfold postMessage
  split
  · exact h
  · split
    · exact h
    · split
      · exact h
      · rename_i b hb
        split
        · exact h
        · split
          · exact h
          · obtain ⟨⟨hfb, hfe⟩, hex⟩ := h
            have hbid : b.id < s.nextBookingId := by
              unfold findBooking at hb
              exact hfb b (List.mem_of_find?_eq_some hb)
            refine ⟨⟨hfb, ?_⟩, ?_⟩
            · intro e he
              simp only [List.mem_append, List.mem_singleton] at he
              rcases he with he | rfl
              · exact hfe e he
              · exact hbid
            · intro x hx
              simp only [statusEvents, List.filter_append]
              simpa [statusEvents] using hex x hx

/-- An operation other than POST /book keeps the booking ids fresh and the
statuses explained. -/
theorem explained_step (sch : Schema) (s : Store) (op : Op) (hop : op.isPostBook = false)
    (h : FreshBookingIds s ∧ StatusExplained s) :
    FreshBookingIds (step sch s op) ∧ StatusExplained (step sch s op) := by
  cases op with
  | postListing auth now body =>
    have := postListing_bookings sch s auth now body
    exact explained_of_same_bookings s _ this.1 this.2.1 this.2.2 h
  | putListing auth idParam body =>
    have := putListing_bookings sch s auth idParam body
    exact explained_of_same_bookings s _ this.1 this.2.1 this.2.2 h
  | backfill orderBy dry =>
    have := backfillLoop_bookings sch dry (publishedListings orderBy s) s 0 0
    exact explained_of_same_bookings s _ this.1 this.2.1 this.2.2 h
  | postBooking user body => exact explained_postBooking s user body h
  | postBook token body => cases hop
  | putBooking user idParam toStatus => exact explained_putBooking s user idParam toStatus h
  | postMessage user bookingId message => exact explained_postMessage s user bookingId message h
  | adminApprove dbRoles idParam body =>
    have := adminApprove_bookings s dbRoles idParam body
    exact explained_of_same_bookings s _ this.1 this.2.1 this.2.2 h
  | adminDeleteWarehouse dbRoles idParam =>
    show FreshBookingIds (adminDeleteWarehouse s dbRoles idParam).2 ∧
      StatusExplained (adminDeleteWarehouse s dbRoles idParam).2
    unfold adminDeleteWarehouse
    split
    · exact h
    · split
      · exact h
      · have := deleteWarehouseRow_bookings s idParam
        exact explained_of_same_bookings s _ this.1 this.2.1 this.2.2 h
  | deleteWarehouse idParam =>
    show FreshBookingIds (deleteWarehouse s idParam).2 ∧
      StatusExplained (deleteWarehouse s idParam).2
    unfold deleteWarehouse
    split
    · exact h
    · have := deleteWarehouseRow_bookings s idParam
      exact explained_of_same_bookings s _ this.1 this.2.1 this.2.2 h

/-- Without the alias the invariant of C4 holds: from the empty store, after
operations none of which is a request to POST /book, the status of every
booking is the status of its last event without a note. -/
theorem status_explained_without_alias (sch : Schema) (ops : List Op)
    (hops : ∀ op, op ∈ ops → op.isPostBook = false) :
    StatusExplained (steps sch emptyStore ops) := by
  have hgen : ∀ (s : Store), FreshBookingIds s ∧ StatusExplained s →
      (∀ op, op ∈ ops → op.isPostBook = false) →
      FreshBookingIds (steps sch s ops) ∧ StatusExplained (steps sch s ops) := by
    induction ops with
    | nil => exact fun s h _ => h
    | cons op rest ih =>
      intro s h hall
      exact ih (fun o ho => hops o (List.mem_cons_of_mem op ho)) (step sch s op)
        (explained_step sch s op (hall op (List.mem_cons_self op rest)) h)
        (fun o ho => hall o (List.mem_cons_of_mem op ho))
  refine (hgen emptyStore ⟨⟨?_, ?_⟩, ?_⟩ hops).2
  · intro b hb
    cases hb
  · intro e he
    cases he
  · intro b hb
    cases hb

/-- The invariant of C4 fails after one request to POST /book: booking 1 is
PENDING and has no status event. -/
theorem status_not_explained_after_alias :
    ¬ StatusExplained (step exampleSchema storeWithWarehouse
      (.postBook (.verified (.fin 5)) (.obj [("warehouseId", .num (.fin 1))]))) := by
  intro h
  have := h ⟨1, 1, 5, "PENDING"⟩ (by
    show (⟨1, 1, 5, "PENDING"⟩ : Booking) ∈ [(⟨1, 1, 5, "PENDING"⟩ : Booking)]
    exact List.mem_singleton.2 rfl)
  revert this
  decide

/-! ### The messaging side-channel -/

/-- C21, as amended. For a booking the request finds: a message sent by a user
who holds WAREHOUSE_OWNER and whose id is the `ownerId` of the booking's
warehouse is answered `ok`, leaves every booking row, so the status of the
booking, as it was, and appends exactly one event, of that booking, with the
booking's status and the note `OWNER_MSG: ` followed by the message; every
other user, one who is not the owner or does not hold WAREHOUSE_OWNER, is
answered 403 `Forbidden` and the store, so the event list, stays as it was. -/
theorem postMessage_spec (s : Store) (u : User) (bookingId : JsNum) (message : String)
    (b : Booking) (wh : WarehouseRow) (hb : findBooking s bookingId = some b)
    (hw : findWarehouse s (.fin (b.warehouseId : ℚ)) = some wh) :
    ("WAREHOUSE_OWNER" ∈ u.roles → wh.data.ownerId = u.id →
      postMessage s (some u) bookingId message =
        (.okTrue,
          { s with
            events := s.events ++ [⟨b.id, b.status, some ("OWNER_MSG: " ++ message)⟩] })) ∧
    (¬ ("WAREHOUSE_OWNER" ∈ u.roles ∧ wh.data.ownerId = u.id) →
      postMessage s (some u) bookingId message = (.error 403 "Forbidden", s)) ∧
    (postMessage s (some u) bookingId message).2.bookings = s.bookings ∧
    message.data <:+ ("OWNER_MSG: " ++ message).data := by
  have hpass : "WAREHOUSE_OWNER" ∈ u.roles →
      requireRole (.one "WAREHOUSE_OWNER") (some u) = .next := by
    intro hm
    have : u.roles.any (fun r => ["WAREHOUSE_OWNER"].contains r) = true :=
      List.any_eq_true.2 ⟨"WAREHOUSE_OWNER", hm, by decide⟩
    simp only [requireRole, RolesArg.allowed, this, if_true]
  have hfail : "WAREHOUSE_OWNER" ∉ u.roles →
      requireRole (.one "WAREHOUSE_OWNER") (some u) = .reject 403 "Forbidden" := by
    intro hm
    have hany : u.roles.any (fun r => ["WAREHOUSE_OWNER"].contains r) = false := by
      rw [List.any_eq_false]
      intro r hr hc
      have : r = "WAREHOUSE_OWNER" := by simpa using hc
      exact hm (this ▸ hr)
    simp only [requireRole, RolesArg.allowed, hany]
    rfl
  have hgood : "WAREHOUSE_OWNER" ∈ u.roles → wh.data.ownerId = u.id →
      postMessage s (some u) bookingId message =
        (.okTrue,
          { s with
            events := s.events ++ [⟨b.id, b.status, some ("OWNER_MSG: " ++ message)⟩] }) := by
    intro hm ho
    simp only [postMessage, hpass hm, hb, hw, ho, bne_self_eq_false]
    rfl
  have hbad : ¬ ("WAREHOUSE_OWNER" ∈ u.roles ∧ wh.data.ownerId = u.id) →
      postMessage s (some u) bookingId message = (.error 403 "Forbidden", s) := by
    intro hn
    by_cases hm : "WAREHOUSE_OWNER" ∈ u.roles
    · have ho : wh.data.ownerId ≠ u.id := fun ho => hn ⟨hm, ho⟩
      have hne : (wh.data.ownerId != u.id) = true := by simpa using ho
      simp only [postMessage, hpass hm, hb, hw, hne, if_true]
    · simp only [postMessage, hfail hm]
  refine ⟨hgood, hbad, ?_, ?_⟩
  · by_cases hc : "WAREHOUSE_OWNER" ∈ u.roles ∧ wh.data.ownerId = u.id
    · rw [hgood hc.1 hc.2]
    · rw [hbad hc]
  · rw [String.data_append]
    exact List.suffix_append _ _

/-- C21 at the PENDING booking 1: its warehouse's owner sends a message; the
booking stays PENDING and its events are the creation event and one PENDING
event with the note. -/
theorem postMessage_owner_booking1 :
    (postMessage storeWithBooking (some ownerUser) (.fin 1) "Please confirm").2.bookings =
      [⟨1, 1, 5, "PENDING"⟩] ∧
    (postMessage storeWithBooking (some ownerUser) (.fin 1) "Please confirm").2.events =
      [⟨1, "PENDING", none⟩, ⟨1, "PENDING", some "OWNER_MSG: Please confirm"⟩] := by
  have h := (postMessage_spec storeWithBooking ownerUser (.fin 1) "Please confirm"
    ⟨1, 1, 5, "PENDING"⟩ approvedWarehouse rfl rfl).1 (by decide) rfl
  rw [h]
  exact ⟨rfl, by decide⟩

/-- C21 as stated fails for an owner who does not hold WAREHOUSE_OWNER: user 2
owns warehouse 1 and holds MERCHANT only; the message on booking 1 is answered
403 `Forbidden` and no event is appended. -/
theorem postMessage_owner_without_role :
    approvedWarehouse.data.ownerId = ownerWithoutRole.id ∧
    postMessage storeWithBooking (some ownerWithoutRole) (.fin 1) "Please confirm" =
      (.error 403 "Forbidden", storeWithBooking) ∧
    (postMessage storeWithBooking (some ownerWithoutRole) (.fin 1) "Please confirm").2.events =
      [⟨1, "PENDING", none⟩] :=
  ⟨rfl, rfl, rfl⟩

/-! ### The provenance marker -/

/-- The digit character of a number below ten is one of the ten decimal digits
and reads back as the number. -/
theorem digitChar_decimal :
    ∀ k, k < 10 →
      Nat.digitChar k ∈ "0123456789".data ∧ digitValue 10 (Nat.digitChar k) = some k := by
  decide

/-- A decimal digit is neither bracket and is its own lower case. -/
theorem decimal_char_plain :
    ∀ c, c ∈ "0123456789".data → c ≠ '[' ∧ c ≠ ']' ∧ c.toLower = c := by
  decide

/-- Reading digits continues across an append. -/
theorem digitsFrom_append (base acc : Nat) (xs ys : List Char) :
    digitsFrom base acc (xs ++ ys) =
      (digitsFrom base acc xs).bind (fun v => digitsFrom base v ys) := by
  induction xs generalizing acc with
  | nil => rfl
  | cons c cs ih =>
    simp only [List.cons_append, digitsFrom]
    cases digitValue base c with
    | none => rfl
    | some d => exact ih _

/-- The printing loop of a number, with enough fuel, puts decimal digits in
front of the digits it was given, and they read back as the number. -/
theorem toDigitsCore_spec (fuel n : Nat) (ds : List Char) (h : n < fuel) :
    ∃ xs, Nat.toDigitsCore 10 fuel n ds = xs ++ ds ∧
      (∀ c, c ∈ xs → c ∈ "0123456789".data) ∧
      ∀ acc, digitsFrom 10 acc xs = some (acc * 10 ^ xs.length + n) := by
  induction fuel generalizing n ds with
  | zero => exact absurd h (Nat.not_lt_zero n)
  | succ f ih =>
    have hmod : n % 10 < 10 := Nat.mod_lt n (by decide)
    obtain ⟨hdec, hval⟩ := digitChar_decimal (n % 10) hmod
    by_cases h0 : n / 10 = 0
    · refine ⟨[Nat.digitChar (n % 10)], ?_, ?_, ?_⟩
      · simp [Nat.toDigitsCore, h0]
      · intro c hc
        rw [List.mem_singleton.1 hc]
        exact hdec
      · intro acc
        simp only [digitsFrom, hval, List.length_singleton, pow_one]
        congr 1
        omega
    · have hlt : n / 10 < f := by omega
      obtain ⟨xs, hxs, hdig, hread⟩ := ih (n / 10) (Nat.digitChar (n % 10) :: ds) hlt
      refine ⟨xs ++ [Nat.digitChar (n % 10)], ?_, ?_, ?_⟩
      · simp [Nat.toDigitsCore, h0, hxs]
      · intro c hc
        rcases List.mem_append.1 hc with hc | hc
        · exact hdig c hc
        · rw [List.mem_singleton.1 hc]
          exact hdec
      · intro acc
        rw [digitsFrom_append, hread acc]
        simp only [Option.bind_eq_bind, Option.some_bind, digitsFrom, hval, List.length_append,
          List.length_singleton, pow_succ]
        congr 1
        have hdm := Nat.div_add_mod n 10
        rw [← Nat.mul_assoc]
        generalize acc * 10 ^ xs.length = a
        omega

/-- The decimal numeral of a number consists of decimal digits and reads back as
the number. -/
theorem toString_nat_spec (n : Nat) :
    (∀ c, c ∈ (toString n).data → c ∈ "0123456789".data) ∧
    digitsFrom 10 0 (toString n).data = some n := by
  obtain ⟨xs, hxs, hdig, hread⟩ := toDigitsCore_spec (n + 1) n [] (Nat.lt_succ_self n)
  have hdata : (toString n).data = xs := by
    show Nat.toDigitsCore 10 (n + 1) n [] = xs
    rw [hxs, List.append_nil]
  rw [hdata]
  refine ⟨hdig, ?_⟩
  rw [hread 0]
  simp

/-- Two numbers with the same decimal numeral are equal. -/
theorem toString_nat_inj (i j : Nat) (h : (toString i).data = (toString j).data) : i = j := by
  have hi := (toString_nat_spec i).2
  have hj := (toString_nat_spec j).2
  rw [h, hj] at hi
  exact (Option.some.inj hi).symm

/-- A list between two delimiters that do not occur in it is found inside
another such list only when the two lists are equal. -/
theorem delimited_infix_eq {α : Type} (x y : α) (b1 b2 : List α)
    (hx : x ∉ b2) (hxy : x ≠ y) (hy : y ∉ b2)
    (h : x :: (b1 ++ [y]) <:+: x :: (b2 ++ [y])) : b1 = b2 := by
  obtain ⟨a, c, hac⟩ := h
  cases a with
  | cons a0 a' =>
    exfalso
    simp only [List.cons_append, List.cons.injEq] at hac
    have hmem : x ∈ b2 ++ [y] := by
      rw [← hac.2]
      simp
    rcases List.mem_append.1 hmem with hm | hm
    · exact hx hm
    · exact hxy (List.mem_singleton.1 hm)
  | nil =>
    simp only [List.nil_append, List.cons_append, List.cons.injEq, true_and] at hac
    rcases List.eq_nil_or_concat c with hc | ⟨c', l, hc⟩
    · subst hc
      rw [List.append_nil] at hac
      exact List.append_cancel_right hac
    · exfalso
      subst hc
      have hre : (b1 ++ [y] ++ c') ++ [l] = b2 ++ [y] := by
        rw [← hac]
        simp [List.concat_eq_append]
      have hb2 := (List.append_inj' hre rfl).1
      apply hy
      rw [← hb2]
      simp

/-- The characters of a marker: an opening bracket, the word and the decimal
numeral of the id, a closing bracket. -/
theorem originTag_data (n : Nat) :
    (originTag n).data = '[' :: (("origin:listing:".data ++ (toString n).data) ++ [']']) := by
  simp only [originTag, String.data_append]
  rfl

/-- A character of the word of a marker is neither bracket and is its own
lower case. -/
theorem word_char_plain :
    ∀ c, c ∈ "origin:listing:".data → c ≠ '[' ∧ c ≠ ']' ∧ c.toLower = c := by
  decide

/-- Neither bracket occurs between the brackets of a marker, and every
character there is its own lower case. -/
theorem originTag_body (n : Nat) :
    ∀ c, c ∈ "origin:listing:".data ++ (toString n).data →
      c ≠ '[' ∧ c ≠ ']' ∧ c.toLower = c := by
  intro c hc
  rcases List.mem_append.1 hc with hc | hc
  · exact word_char_plain c hc
  · exact decimal_char_plain c ((toString_nat_spec n).1 c hc)

/-- Case folding leaves a marker as it is. -/
theorem foldCase_originTag (n : Nat) : foldCase (originTag n) = (originTag n).data := by
  unfold foldCase
  have hall : ∀ c, c ∈ (originTag n).data → c.toLower = id c := by
    intro c hc
    rw [originTag_data] at hc
    rcases List.mem_cons.1 hc with hc | hc
    · rw [hc]
      rfl
    · rcases List.mem_append.1 hc with hc | hc
      · exact (originTag_body n c hc).2.2
      · rw [List.mem_singleton.1 hc]
        rfl
  rw [List.map_congr_left hall, List.map_id]

/-- A marker is found inside another marker only when the ids are equal. -/
theorem originTag_infix_eq (i j : Nat) (h : (originTag i).data <:+: (originTag j).data) :
    i = j := by
  rw [originTag_data, originTag_data] at h
  have hbody := delimited_infix_eq '[' ']' _ _
    (fun hm => (originTag_body j _ hm).1 rfl) (by decide)
    (fun hm => (originTag_body j _ hm).2.1 rfl) h
  exact toString_nat_inj i j (List.append_cancel_left hbody)

/-- C22. For listing ids `i` and `j` that differ, the marker of `i` is not a
substring of the marker of `j`, as written and after case folding, so the
store's search for the marker of `i` does not match the marker of `j`; hence
the record a promotion of listing `j`, route or script, builds from a
description that is `null` or blank has the marker of `j` as description and
matches the lookup of listing `i` for no owner. -/
theorem originTag_not_substring (i j : Nat) (h : i ≠ j) :
    ¬ (originTag i).data <:+: (originTag j).data ∧
    ¬ foldCase (originTag i) <:+: foldCase (originTag j) ∧
    containsInsensitive (originTag j) (originTag i) = false ∧
    (∀ (ownerId o : Nat) (l : Listing) (d : WarehouseData),
      (routeWarehouseData ownerId j l = .ok d ∨
        (backfillWarehouseData l = .ok d ∧ l.id = j)) →
      (l.description = none ∨ ∃ t, l.description = some t ∧ isBlank t = true) →
      d.description = originTag j ∧ matchesLookup d o (originTag i) = false) := by
  have h1 : ¬ (originTag i).data <:+: (originTag j).data :=
    fun hin => h (originTag_infix_eq i j hin)
  have h2 : ¬ foldCase (originTag i) <:+: foldCase (originTag j) := by
    rw [foldCase_originTag, foldCase_originTag]
    exact h1
  have h3 : containsInsensitive (originTag j) (originTag i) = false := by
    unfold containsInsensitive
    exact decide_eq_false h2
  refine ⟨h1, h2, h3, ?_⟩
  intro ownerId o l d hd hblank
  have hdesc : d.description = promotedDescription l.description j := by
    rcases hd with hd | ⟨hd, hid⟩
    · obtain ⟨p, t, -, -, rfl⟩ := (routeWarehouseData_ok_iff ownerId j l d).1 hd
      rfl
    · obtain ⟨p, t, -, -, rfl⟩ := (backfillWarehouseData_ok_iff l d).1 hd
      rw [hid]
  have htag : d.description = originTag j := by
    rw [hdesc, promotedDescription_eq]
    rcases hblank with hn | ⟨t, ht, hb⟩
    · rw [hn]
    · rw [ht]
      simp [hb]
  refine ⟨htag, ?_⟩
  unfold matchesLookup
  rw [htag, h3, Bool.and_false]

/-- C22 at listings 1 and 12: the marker `[origin:listing:1]` is not found in
the marker `[origin:listing:12]`, nor the other way round. -/
theorem originTag_1_and_12 :
    originTag 1 = "[origin:listing:1]" ∧ originTag 12 = "[origin:listing:12]" ∧
    containsInsensitive (originTag 12) (originTag 1) = false ∧
    containsInsensitive (originTag 1) (originTag 12) = false :=
  ⟨by decide, by decide, (originTag_not_substring 1 12 (by decide)).2.2.1,
    (originTag_not_substring 12 1 (by decide)).2.2.1⟩

end WarehouseBackend
